import Mathlib

/-!
# Rectangle algebra of `r_area.c`

A shallow embedding of the rectangle value type of `r_area.c` and of its
operations (`RAreaIntersect`, `RAreaIsIntersect`, `RAreaContainsXY`,
`RAreaHorizontalUnion`, `RAreaVerticalUnion`), followed by theorems about them.

Conventions of the embedding:

* the C type `int` is embedded as `Int`: the arithmetic is that of unbounded
  integers (signed overflow is undefined behaviour in C, and none of the
  properties below is about it);
* a C function returning `int` as a truth value returns `Bool`;
* the macros `min` and `max` of `util.h` are the minimum and the maximum of two
  integers;
* the pointers `low` and `hi` (`left` and `right`) that one `if` of the source
  sets to `self` and `other`, or the other way round, are two values chosen by
  the same test;
* a function returning `RAreaList *`, where `NULL` means that there is no
  list, returns `Option RAreaList`, with `none` for `NULL`;
* `RArea *` arguments are only read, so they are passed by value.
-/

/-- The `RArea` structure of `r_area.h`: top-left corner and extents. -/
structure RArea where
  x : Int
  y : Int
  width : Int
  height : Int
  deriving DecidableEq, Repr

/-- Modelled from the spec: the list container of `r_area_list.c`, which is not
part of the sources at hand: "a resizable, insertion-ordered sequence of
rectangle values". -/
abbrev RAreaList := List RArea

/-- Modelled from the spec: `RAreaListNew(cap, ...)` of `r_area_list.c` creates
a sequence "with an optional initial-capacity hint", holding the areas given
before the closing `NULL`, in order. -/
def RAreaListNew (_cap : Nat) (areas : List RArea) : RAreaList := areas

/-- Modelled from the spec: `RAreaListAdd` of `r_area_list.c`, "appending one
rectangle at a time". -/
def RAreaListAdd (self : RAreaList) (area : RArea) : RAreaList := self ++ [area]

/-- Construct an RArea from given components. -/
def RAreaNew (x y width height : Int) : RArea :=
  { x := x, y := y, width := width, height := height }

/-- The value that `RAreaNewStatic` stores in its static buffer and hands out;
the callers copy it at once, so only the value matters. -/
def RAreaNewStatic (x y width height : Int) : RArea :=
  RAreaNew x y width height

/-- Return a facially-invalid RArea. -/
def RAreaInvalid : RArea :=
  { x := -1, y := -1, width := -1, height := -1 }

/-- Is an RArea facially valid? -/
def RAreaIsValid (self : RArea) : Bool :=
  decide (self.width ≥ 0) && decide (self.height ≥ 0)

/-- Return the right edge of an RArea. -/
def RAreaX2 (self : RArea) : Int :=
  self.x + self.width - 1

/-- Return the bottom edge of an RArea. -/
def RAreaY2 (self : RArea) : Int :=
  self.y + self.height - 1

/-- Return the area of an RArea. -/
def RAreaArea (self : RArea) : Int :=
  self.width * self.height

/-- Do two areas intersect? -/
def RAreaIsIntersect (self other : RArea) : Bool :=
  -- [other][self]
  if RAreaX2 other < self.x then false
  -- [self][other]
  else if other.x > RAreaX2 self then false
  -- [other] above [self]
  else if RAreaY2 other < self.y then false
  -- [self] above [other]
  else if other.y > RAreaY2 self then false
  else true

/-- Return an RArea describing the intersection of two RAreas. The `min` and
`max` macros of `util.h` are the minimum and maximum of two integers. -/
def RAreaIntersect (self other : RArea) : RArea :=
  if RAreaIsIntersect self other then
    let x1 := max other.x self.x
    let x2 := min (RAreaX2 other) (RAreaX2 self)
    let y1 := max other.y self.y
    let y2 := min (RAreaY2 other) (RAreaY2 self)
    RAreaNew x1 y1 (x2 - x1 + 1) (y2 - y1 + 1)
  else
    RAreaInvalid

/-- Is a given coordinate inside a RArea? -/
def RAreaContainsXY (self : RArea) (x y : Int) : Bool :=
  decide (x ≥ self.x) && decide (x ≤ RAreaX2 self)
    && decide (y ≥ self.y) && decide (y ≤ RAreaY2 self)

/-- The union of two areas as at most three strips stacked from top to bottom,
or `none` where the source returns `NULL`. -/
def RAreaHorizontalUnion (self other : RArea) : Option RAreaList :=
  -- [other]|[self] (perhaps common lines, but areas disjointed)
  if RAreaX2 other < self.x - 1 then none
  -- [self]|[other] (perhaps common lines, but areas disjointed)
  else if other.x > RAreaX2 self + 1 then none
  -- No lines in common
  else if RAreaY2 other < self.y ∨ other.y > RAreaY2 self then
    -- Special case where 2 areas with same width can be join vertically
    if self.width = other.width ∧ self.x = other.x then
      if RAreaY2 other + 1 = self.y then
        some (RAreaListNew 1
          [RAreaNewStatic self.x other.y self.width (self.height + other.height)])
      else if RAreaY2 self + 1 = other.y then
        some (RAreaListNew 1
          [RAreaNewStatic self.x self.y self.width (self.height + other.height)])
      else none
    else none
  else
    -- At least one line in common
    let min_x := min self.x other.x
    let max_x := max (RAreaX2 self) (RAreaX2 other)
    let max_width := max_x - min_x + 1
    let res := RAreaListNew 3 []
    let low := if self.y < other.y then self else other
    let hi := if self.y < other.y then other else self
    let res :=
      if hi.y ≠ low.y then
        RAreaListAdd res (RAreaNewStatic low.x low.y low.width (hi.y - low.y))
      else res
    let res :=
      RAreaListAdd res
        (RAreaNewStatic min_x hi.y max_width
          (min (RAreaY2 low) (RAreaY2 hi) - max low.y hi.y + 1))
    let res :=
      if RAreaY2 low ≠ RAreaY2 hi then
        if RAreaY2 hi < RAreaY2 low then
          RAreaListAdd res
            (RAreaNewStatic low.x (RAreaY2 hi + 1) low.width (RAreaY2 low - RAreaY2 hi))
        else
          RAreaListAdd res
            (RAreaNewStatic hi.x (RAreaY2 low + 1) hi.width (RAreaY2 hi - RAreaY2 low))
      else res
    some res

/-- The union of two areas as at most three strips side by side from left to
right, or `none` where the source returns `NULL`. -/
def RAreaVerticalUnion (self other : RArea) : Option RAreaList :=
  -- [other] above a gap above [self]
  if RAreaY2 other < self.y - 1 then none
  -- [self] above a gap above [other]
  else if other.y > RAreaY2 self + 1 then none
  -- No columns in common
  else if RAreaX2 other < self.x ∨ other.x > RAreaX2 self then
    -- Special case where 2 areas with same height can be join horizontally
    if self.height = other.height ∧ self.y = other.y then
      if RAreaX2 other + 1 = self.x then
        some (RAreaListNew 1
          [RAreaNewStatic other.x self.y (self.width + other.width) self.height])
      else if RAreaX2 self + 1 = other.x then
        some (RAreaListNew 1
          [RAreaNewStatic self.x self.y (self.width + other.width) self.height])
      else none
    else none
  else
    let min_y := min self.y other.y
    let max_y := max (RAreaY2 self) (RAreaY2 other)
    let max_height := max_y - min_y + 1
    let res := RAreaListNew 3 []
    let left := if self.x < other.x then self else other
    let right := if self.x < other.x then other else self
    let res :=
      if right.x ≠ left.x then
        RAreaListAdd res (RAreaNewStatic left.x left.y (right.x - left.x) left.height)
      else res
    let res :=
      RAreaListAdd res
        (RAreaNewStatic right.x min_y
          (min (RAreaX2 left) (RAreaX2 right) - max left.x right.x + 1) max_height)
    let res :=
      if RAreaX2 left ≠ RAreaX2 right then
        if RAreaX2 right < RAreaX2 left then
          RAreaListAdd res
            (RAreaNewStatic (RAreaX2 right + 1) left.y
              (RAreaX2 left - RAreaX2 right) left.height)
        else
          RAreaListAdd res
            (RAreaNewStatic (RAreaX2 left + 1) right.y
              (RAreaX2 right - RAreaX2 left) right.height)
      else res
    some res

/-! ## Auxiliary definitions and lemmas -/

/-- Two areas have no point in common. -/
def PointDisjoint (r s : RArea) : Prop :=
  ∀ px py : Int, ¬ (RAreaContainsXY r px py = true ∧ RAreaContainsXY s px py = true)

/-- Does `r` contain the two opposite corners of `s`, hence all of `s`? -/
def ContainsArea (r s : RArea) : Bool :=
  RAreaContainsXY r s.x s.y && RAreaContainsXY r (RAreaX2 s) (RAreaY2 s)

/-- Does `r` contain two adjacent corners of `s`, hence a whole side of `s`? -/
def CoversSide (r s : RArea) : Bool :=
  (RAreaContainsXY r s.x s.y && RAreaContainsXY r (RAreaX2 s) s.y)
    || (RAreaContainsXY r s.x (RAreaY2 s) && RAreaContainsXY r (RAreaX2 s) (RAreaY2 s))
    || (RAreaContainsXY r s.x s.y && RAreaContainsXY r s.x (RAreaY2 s))
    || (RAreaContainsXY r (RAreaX2 s) s.y && RAreaContainsXY r (RAreaX2 s) (RAreaY2 s))

/-- The rectangles of `rs` have positive width and height, are pairwise disjoint,
and cover exactly the points of `a` or `b`. -/
def TilesUnion (rs : List RArea) (a b : RArea) : Prop :=
  (∀ r ∈ rs, 0 < r.width ∧ 0 < r.height) ∧ rs.Pairwise PointDisjoint ∧
    ∀ px py : Int, (∃ r ∈ rs, RAreaContainsXY r px py = true) ↔
      (RAreaContainsXY a px py = true ∨ RAreaContainsXY b px py = true)

/-- The shape of a plus sign: `v` is the upright bar and `h` the crossbar, which
sticks out of `v` on the left and on the right, `v` sticking out of `h` above
and below. -/
def PlusShape (v h : RArea) : Prop :=
  h.x < v.x ∧ v.x + v.width - 1 < h.x + h.width - 1 ∧
    v.y < h.y ∧ h.y + h.height - 1 < v.y + v.height - 1

/-- A staircase: `u` overlaps the upper left corner of `d`. -/
def StairLeft (u d : RArea) : Prop :=
  u.x < d.x ∧ d.x ≤ u.x + u.width - 1 ∧ u.x + u.width - 1 < d.x + d.width - 1 ∧
    u.y < d.y ∧ d.y ≤ u.y + u.height - 1 ∧ u.y + u.height - 1 < d.y + d.height - 1

/-- A staircase: `u` overlaps the upper right corner of `d`. -/
def StairRight (u d : RArea) : Prop :=
  d.x < u.x ∧ u.x ≤ d.x + d.width - 1 ∧ d.x + d.width - 1 < u.x + u.width - 1 ∧
    u.y < d.y ∧ d.y ≤ u.y + u.height - 1 ∧ u.y + u.height - 1 < d.y + d.height - 1

/-- The two rectangles are flush side by side, without a gap and without
overlap, and share a row. -/
def TouchSideways (a b : RArea) : Prop :=
  (RAreaX2 b + 1 = a.x ∨ RAreaX2 a + 1 = b.x) ∧ a.y ≤ RAreaY2 b ∧ b.y ≤ RAreaY2 a

/-- The two rectangles are flush one above the other, without a gap and without
overlap, and share a column. -/
def TouchUpDown (a b : RArea) : Prop :=
  (RAreaY2 b + 1 = a.y ∨ RAreaY2 a + 1 = b.y) ∧ a.x ≤ RAreaX2 b ∧ b.x ≤ RAreaX2 a

/-- The reflection `T (x, y, w, h) = (y, x, h, w)` that swaps the two axes. -/
def transpose (r : RArea) : RArea :=
  { x := r.y, y := r.x, width := r.height, height := r.width }

/-- Following the spec: the vertical union as "exact mirror" of the horizontal
one, that is the horizontal union of the reflected rectangles with every strip
reflected back, in the same order. -/
def mirroredHorizontalUnion (a b : RArea) : Option RAreaList :=
  (RAreaHorizontalUnion (transpose a) (transpose b)).map (List.map transpose)

/-- Point containment as four linear inequalities. -/
theorem containsXY_iff (r : RArea) (px py : Int) :
    RAreaContainsXY r px py = true ↔
      r.x ≤ px ∧ px ≤ r.x + r.width - 1 ∧ r.y ≤ py ∧ py ≤ r.y + r.height - 1 := by
  simp [RAreaContainsXY, RAreaX2, RAreaY2, and_assoc]

/-- A pairwise disjoint list has no point in two strips at different positions. -/
theorem pointDisjoint_of_pairwise (l : List RArea) (hp : l.Pairwise PointDisjoint)
    (i j : Fin l.length) (hij : i ≠ j) : PointDisjoint (l.get i) (l.get j) := by
  rcases lt_or_gt_of_ne hij with h | h
  · exact (List.pairwise_iff_get.mp hp) i j h
  · intro px py hc
    exact (List.pairwise_iff_get.mp hp) j i h px py ⟨hc.2, hc.1⟩

/-- The strips of `RAreaHorizontalUnion` are pairwise disjoint and cover exactly
the points of the two rectangles. -/
theorem hu_partitions_aux (a b : RArea) (l : RAreaList)
    (haw : 0 < a.width) (hah : 0 < a.height) (hbw : 0 < b.width) (hbh : 0 < b.height)
    (h : RAreaHorizontalUnion a b = some l) :
    l.Pairwise PointDisjoint ∧
      ∀ px py : Int, (∃ r ∈ l, RAreaContainsXY r px py = true) ↔
        (RAreaContainsXY a px py = true ∨ RAreaContainsXY b px py = true) := by
  obtain ⟨ax, ay, aw, ah⟩ := a
  obtain ⟨bx, byy, bw, bh⟩ := b
  simp only at haw hah hbw hbh
  unfold RAreaHorizontalUnion at h
  simp only [RAreaListNew, RAreaListAdd, RAreaNewStatic, RAreaNew, RAreaX2, RAreaY2] at h
  by_cases hlt : ay < byy
  · simp only [hlt, if_true] at h
    split_ifs at h <;>
      simp only [Option.some.injEq, List.nil_append, List.cons_append, reduceCtorEq] at h <;>
      subst h <;> refine ⟨?_, ?_⟩
    all_goals first
      | (intro px py
         simp only [List.mem_cons, List.mem_singleton, List.not_mem_nil, exists_eq_or_imp,
          exists_eq_left, containsXY_iff, or_false, exists_false]
         omega)
      | (simp only [List.pairwise_cons, List.mem_cons, List.mem_singleton, List.not_mem_nil,
          forall_eq_or_imp, forall_eq, List.Pairwise.nil, PointDisjoint, containsXY_iff,
          false_imp_iff, implies_true, and_true]
         repeat' apply And.intro
         all_goals (intro px py; omega))
  · simp only [hlt, if_false] at h
    split_ifs at h <;>
      simp only [Option.some.injEq, List.nil_append, List.cons_append, reduceCtorEq] at h <;>
      subst h <;> refine ⟨?_, ?_⟩
    all_goals first
      | (intro px py
         simp only [List.mem_cons, List.mem_singleton, List.not_mem_nil, exists_eq_or_imp,
          exists_eq_left, containsXY_iff, or_false, exists_false]
         omega)
      | (simp only [List.pairwise_cons, List.mem_cons, List.mem_singleton, List.not_mem_nil,
          forall_eq_or_imp, forall_eq, List.Pairwise.nil, PointDisjoint, containsXY_iff,
          false_imp_iff, implies_true, and_true]
         repeat' apply And.intro
         all_goals (intro px py; omega))

/-- The strips of `RAreaVerticalUnion` are pairwise disjoint and cover exactly
the points of the two rectangles. -/
theorem vu_partitions_aux (a b : RArea) (l : RAreaList)
    (haw : 0 < a.width) (hah : 0 < a.height) (hbw : 0 < b.width) (hbh : 0 < b.height)
    (h : RAreaVerticalUnion a b = some l) :
    l.Pairwise PointDisjoint ∧
      ∀ px py : Int, (∃ r ∈ l, RAreaContainsXY r px py = true) ↔
        (RAreaContainsXY a px py = true ∨ RAreaContainsXY b px py = true) := by
  obtain ⟨ax, ay, aw, ah⟩ := a
  obtain ⟨bx, byy, bw, bh⟩ := b
  simp only at haw hah hbw hbh
  unfold RAreaVerticalUnion at h
  simp only [RAreaListNew, RAreaListAdd, RAreaNewStatic, RAreaNew, RAreaX2, RAreaY2] at h
  by_cases hlt : ax < bx
  · simp only [hlt, if_true] at h
    split_ifs at h <;>
      simp only [Option.some.injEq, List.nil_append, List.cons_append, reduceCtorEq] at h <;>
      subst h <;> refine ⟨?_, ?_⟩
    all_goals first
      | (intro px py
         simp only [List.mem_cons, List.mem_singleton, List.not_mem_nil, exists_eq_or_imp,
          exists_eq_left, containsXY_iff, or_false, exists_false]
         omega)
      | (simp only [List.pairwise_cons, List.mem_cons, List.mem_singleton, List.not_mem_nil,
          forall_eq_or_imp, forall_eq, List.Pairwise.nil, PointDisjoint, containsXY_iff,
          false_imp_iff, implies_true, and_true]
         repeat' apply And.intro
         all_goals (intro px py; omega))
  · simp only [hlt, if_false] at h
    split_ifs at h <;>
      simp only [Option.some.injEq, List.nil_append, List.cons_append, reduceCtorEq] at h <;>
      subst h <;> refine ⟨?_, ?_⟩
    all_goals first
      | (intro px py
         simp only [List.mem_cons, List.mem_singleton, List.not_mem_nil, exists_eq_or_imp,
          exists_eq_left, containsXY_iff, or_false, exists_false]
         omega)
      | (simp only [List.pairwise_cons, List.mem_cons, List.mem_singleton, List.not_mem_nil,
          forall_eq_or_imp, forall_eq, List.Pairwise.nil, PointDisjoint, containsXY_iff,
          false_imp_iff, implies_true, and_true]
         repeat' apply And.intro
         all_goals (intro px py; omega))

/-- The overlap test as four linear inequalities. -/
theorem isIntersect_iff (a b : RArea) :
    RAreaIsIntersect a b = true ↔
      a.x ≤ b.x + b.width - 1 ∧ b.x ≤ a.x + a.width - 1 ∧
        a.y ≤ b.y + b.height - 1 ∧ b.y ≤ a.y + a.height - 1 := by
  unfold RAreaIsIntersect RAreaX2 RAreaY2
  split_ifs <;> simp <;> omega

/-- The merged span and the overlap of two intervals add up to the two lengths. -/
theorem span_add_overlap (p m q n : Int) :
    max (p + m - 1) (q + n - 1) - min p q + 1 =
      m + n - (min (q + n - 1) (p + m - 1) - max q p + 1) := by
  omega

/-- Right-hand side of the area law, with the overlap test in place of the
validity of the intersection. -/
theorem area_rhs (a b : RArea)
    (haw : 0 ≤ a.width) (hah : 0 ≤ a.height) (hbw : 0 ≤ b.width) (hbh : 0 ≤ b.height) :
    (if RAreaIsValid (RAreaIntersect a b) = true
      then RAreaArea a + RAreaArea b - RAreaArea (RAreaIntersect a b)
      else RAreaArea a + RAreaArea b) =
    if RAreaIsIntersect a b = true
      then a.width * a.height + b.width * b.height -
        (min (b.x + b.width - 1) (a.x + a.width - 1) - max b.x a.x + 1) *
          (min (b.y + b.height - 1) (a.y + a.height - 1) - max b.y a.y + 1)
      else a.width * a.height + b.width * b.height := by
  by_cases hI : RAreaIsIntersect a b = true
  · have hI2 := (isIntersect_iff a b).mp hI
    have hv : RAreaIsValid (RAreaIntersect a b) = true := by
      simp only [RAreaIntersect, hI, if_true, RAreaNew, RAreaIsValid, RAreaX2, RAreaY2,
        Bool.and_eq_true, decide_eq_true_eq]
      omega
    rw [if_pos hv, if_pos hI]
    simp only [RAreaIntersect, hI, if_true, RAreaNew, RAreaArea, RAreaX2, RAreaY2]
  · have hv : ¬ RAreaIsValid (RAreaIntersect a b) = true := by
      simp [RAreaIntersect, hI, RAreaInvalid, RAreaIsValid]
    rw [if_neg hv, if_neg hI]
    simp only [RAreaArea]

set_option maxHeartbeats 4000000 in
/-- The area law for `RAreaHorizontalUnion`, on the widths and heights. -/
theorem hu_area_aux (a b : RArea) (l : RAreaList)
    (haw : 0 ≤ a.width) (hah : 0 ≤ a.height) (hbw : 0 ≤ b.width) (hbh : 0 ≤ b.height)
    (h : RAreaHorizontalUnion a b = some l) :
    (l.map RAreaArea).sum =
      if RAreaIsValid (RAreaIntersect a b) = true
      then RAreaArea a + RAreaArea b - RAreaArea (RAreaIntersect a b)
      else RAreaArea a + RAreaArea b := by
  rw [area_rhs a b haw hah hbw hbh]
  have hI := isIntersect_iff a b
  obtain ⟨ax, ay, aw, ah⟩ := a
  obtain ⟨bx, byy, bw, bh⟩ := b
  simp only at haw hah hbw hbh hI ⊢
  unfold RAreaHorizontalUnion at h
  simp only [RAreaListNew, RAreaListAdd, RAreaNewStatic, RAreaNew, RAreaX2, RAreaY2] at h
  by_cases hlt : ay < byy
  · simp only [hlt, if_true] at h
    split_ifs at h <;>
      simp only [Option.some.injEq, List.nil_append, List.cons_append, reduceCtorEq] at h <;>
      subst h <;>
      simp only [List.map_cons, List.map_nil, List.sum_cons, List.sum_nil, RAreaArea, add_zero]
    all_goals split_ifs with hh
    all_goals rw [hI] at hh
    all_goals clear hI
    all_goals first
      | (exfalso; omega)
      | (rw [span_add_overlap ax aw bx bw]
         generalize hO : min (bx + bw - 1) (ax + aw - 1) - max bx ax + 1 = O
         first | (have e0 : O = 0 := (by omega); rw [e0]) | skip
         clear hO
         rw [min_comm (ay + ah - 1), max_comm ay byy]
         generalize hT : min (byy + bh - 1) (ay + ah - 1) - max byy ay + 1 = T
         first
           | (have e : T = bh := by omega
              clear hT
              rw [e]
              first
                | ring1
                | (have e1 : ay + ah - (byy + bh) = 0 := by omega
                   linear_combination (-aw) * e1))
           | (have e : T = ay + ah - byy := by omega
              clear hT
              rw [e]
              ring1))
      | (obtain ⟨rfl, rfl⟩ := ‹aw = bw ∧ ax = bx›; ring1)
  · simp only [hlt, if_false] at h
    split_ifs at h <;>
      simp only [Option.some.injEq, List.nil_append, List.cons_append, reduceCtorEq] at h <;>
      subst h <;>
      simp only [List.map_cons, List.map_nil, List.sum_cons, List.sum_nil, RAreaArea, add_zero]
    all_goals split_ifs with hh
    all_goals rw [hI] at hh
    all_goals clear hI
    all_goals first
      | (exfalso; omega)
      | (rw [span_add_overlap ax aw bx bw]
         generalize hO : min (bx + bw - 1) (ax + aw - 1) - max bx ax + 1 = O
         first | (have e0 : O = 0 := (by omega); rw [e0]) | skip
         clear hO
         generalize hT : min (byy + bh - 1) (ay + ah - 1) - max byy ay + 1 = T
         first
           | (have e : T = ah := by omega
              clear hT
              rw [e]
              first
                | ring1
                | (have e1 : ay + ah - (byy + bh) = 0 := by omega
                   first
                     | linear_combination bw * e1
                     | (have e2 : ay - byy = 0 := by omega
                        linear_combination bw * e1 - bw * e2))
                | (have e2 : ay - byy = 0 := by omega
                   linear_combination (-bw) * e2))
           | (have e : T = byy + bh - ay := by omega
              clear hT
              rw [e]
              first
                | ring1
                | (have e2 : ay - byy = 0 := by omega
                   linear_combination (-bw) * e2)))
      | (obtain ⟨rfl, rfl⟩ := ‹aw = bw ∧ ax = bx›; ring1)

set_option maxHeartbeats 4000000 in
/-- The area law for `RAreaVerticalUnion`, on the widths and heights. -/
theorem vu_area_aux (a b : RArea) (l : RAreaList)
    (haw : 0 ≤ a.width) (hah : 0 ≤ a.height) (hbw : 0 ≤ b.width) (hbh : 0 ≤ b.height)
    (h : RAreaVerticalUnion a b = some l) :
    (l.map RAreaArea).sum =
      if RAreaIsValid (RAreaIntersect a b) = true
      then RAreaArea a + RAreaArea b - RAreaArea (RAreaIntersect a b)
      else RAreaArea a + RAreaArea b := by
  rw [area_rhs a b haw hah hbw hbh]
  have hI := isIntersect_iff a b
  obtain ⟨ax, ay, aw, ah⟩ := a
  obtain ⟨bx, byy, bw, bh⟩ := b
  simp only at haw hah hbw hbh hI ⊢
  unfold RAreaVerticalUnion at h
  simp only [RAreaListNew, RAreaListAdd, RAreaNewStatic, RAreaNew, RAreaX2, RAreaY2] at h
  by_cases hlt : ax < bx
  · simp only [hlt, if_true] at h
    split_ifs at h <;>
      simp only [Option.some.injEq, List.nil_append, List.cons_append, reduceCtorEq] at h <;>
      subst h <;>
      simp only [List.map_cons, List.map_nil, List.sum_cons, List.sum_nil, RAreaArea, add_zero]
    all_goals split_ifs with hh
    all_goals rw [hI] at hh
    all_goals clear hI
    all_goals first
      | (exfalso; omega)
      | (rw [span_add_overlap ay ah byy bh]
         generalize hO : min (byy + bh - 1) (ay + ah - 1) - max byy ay + 1 = O
         first | (have e0 : O = 0 := (by omega); rw [e0]) | skip
         clear hO
         rw [min_comm (ax + aw - 1), max_comm ax bx]
         generalize hT : min (bx + bw - 1) (ax + aw - 1) - max bx ax + 1 = T
         first
           | (have e : T = bw := by omega
              clear hT
              rw [e]
              first
                | ring1
                | (have e1 : ax + aw - (bx + bw) = 0 := by omega
                   linear_combination (-ah) * e1))
           | (have e : T = ax + aw - bx := by omega
              clear hT
              rw [e]
              ring1))
      | (obtain ⟨rfl, rfl⟩ := ‹ah = bh ∧ ay = byy›; ring1)
  · simp only [hlt, if_false] at h
    split_ifs at h <;>
      simp only [Option.some.injEq, List.nil_append, List.cons_append, reduceCtorEq] at h <;>
      subst h <;>
      simp only [List.map_cons, List.map_nil, List.sum_cons, List.sum_nil, RAreaArea, add_zero]
    all_goals split_ifs with hh
    all_goals rw [hI] at hh
    all_goals clear hI
    all_goals first
      | (exfalso; omega)
      | (rw [span_add_overlap ay ah byy bh]
         generalize hO : min (byy + bh - 1) (ay + ah - 1) - max byy ay + 1 = O
         first | (have e0 : O = 0 := (by omega); rw [e0]) | skip
         clear hO
         generalize hT : min (bx + bw - 1) (ax + aw - 1) - max bx ax + 1 = T
         first
           | (have e : T = aw := by omega
              clear hT
              rw [e]
              first
                | ring1
                | (have e1 : ax + aw - (bx + bw) = 0 := by omega
                   first
                     | linear_combination bh * e1
                     | (have e2 : ax - bx = 0 := by omega
                        linear_combination bh * e1 - bh * e2))
                | (have e2 : ax - bx = 0 := by omega
                   linear_combination (-bh) * e2))
           | (have e : T = bx + bw - ax := by omega
              clear hT
              rw [e]
              first
                | ring1
                | (have e2 : ax - bx = 0 := by omega
                   linear_combination (-bh) * e2)))
      | (obtain ⟨rfl, rfl⟩ := ‹ah = bh ∧ ay = byy›; ring1)

/-- `RAreaHorizontalUnion` returns one to three strips, none of them degenerate. -/
theorem hu_shape_aux (a b : RArea) (l : RAreaList)
    (haw : 0 < a.width) (hah : 0 < a.height) (hbw : 0 < b.width) (hbh : 0 < b.height)
    (h : RAreaHorizontalUnion a b = some l) :
    1 ≤ l.length ∧ l.length ≤ 3 ∧ ∀ r ∈ l, 0 < r.width ∧ 0 < r.height := by
  obtain ⟨ax, ay, aw, ah⟩ := a
  obtain ⟨bx, byy, bw, bh⟩ := b
  simp only at haw hah hbw hbh
  unfold RAreaHorizontalUnion at h
  simp only [RAreaListNew, RAreaListAdd, RAreaNewStatic, RAreaNew, RAreaX2, RAreaY2] at h
  by_cases hlt : ay < byy
  · simp only [hlt, if_true] at h
    split_ifs at h <;>
      simp only [Option.some.injEq, List.nil_append, List.cons_append, reduceCtorEq] at h <;>
      subst h <;>
      simp only [List.length_cons, List.length_nil, List.mem_cons, List.mem_singleton,
        List.not_mem_nil, forall_eq_or_imp, forall_eq, or_false, false_imp_iff, implies_true,
        and_true] <;>
      omega
  · simp only [hlt, if_false] at h
    split_ifs at h <;>
      simp only [Option.some.injEq, List.nil_append, List.cons_append, reduceCtorEq] at h <;>
      subst h <;>
      simp only [List.length_cons, List.length_nil, List.mem_cons, List.mem_singleton,
        List.not_mem_nil, forall_eq_or_imp, forall_eq, or_false, false_imp_iff, implies_true,
        and_true] <;>
      omega

/-- `RAreaVerticalUnion` returns one to three strips, none of them degenerate. -/
theorem vu_shape_aux (a b : RArea) (l : RAreaList)
    (haw : 0 < a.width) (hah : 0 < a.height) (hbw : 0 < b.width) (hbh : 0 < b.height)
    (h : RAreaVerticalUnion a b = some l) :
    1 ≤ l.length ∧ l.length ≤ 3 ∧ ∀ r ∈ l, 0 < r.width ∧ 0 < r.height := by
  obtain ⟨ax, ay, aw, ah⟩ := a
  obtain ⟨bx, byy, bw, bh⟩ := b
  simp only at haw hah hbw hbh
  unfold RAreaVerticalUnion at h
  simp only [RAreaListNew, RAreaListAdd, RAreaNewStatic, RAreaNew, RAreaX2, RAreaY2] at h
  by_cases hlt : ax < bx
  · simp only [hlt, if_true] at h
    split_ifs at h <;>
      simp only [Option.some.injEq, List.nil_append, List.cons_append, reduceCtorEq] at h <;>
      subst h <;>
      simp only [List.length_cons, List.length_nil, List.mem_cons, List.mem_singleton,
        List.not_mem_nil, forall_eq_or_imp, forall_eq, or_false, false_imp_iff, implies_true,
        and_true] <;>
      omega
  · simp only [hlt, if_false] at h
    split_ifs at h <;>
      simp only [Option.some.injEq, List.nil_append, List.cons_append, reduceCtorEq] at h <;>
      subst h <;>
      simp only [List.length_cons, List.length_nil, List.mem_cons, List.mem_singleton,
        List.not_mem_nil, forall_eq_or_imp, forall_eq, or_false, false_imp_iff, implies_true,
        and_true] <;>
      omega

/-- Not containing a rectangle, as linear inequalities on its two corners. -/
theorem containsArea_eq_false_iff (r s : RArea) :
    ContainsArea r s = false ↔
      ¬ ((r.x ≤ s.x ∧ s.x ≤ r.x + r.width - 1 ∧ r.y ≤ s.y ∧ s.y ≤ r.y + r.height - 1) ∧
        (r.x ≤ s.x + s.width - 1 ∧ s.x + s.width - 1 ≤ r.x + r.width - 1 ∧
          r.y ≤ s.y + s.height - 1 ∧ s.y + s.height - 1 ≤ r.y + r.height - 1)) := by
  rw [← Bool.not_eq_true, ContainsArea, Bool.and_eq_true, containsXY_iff, containsXY_iff]
  simp only [RAreaX2, RAreaY2]

/-- One rectangle does not cover the union of two rectangles that share a row,
are aligned at exactly one of top and bottom, and do not contain each other. -/
theorem no_single_tile_two (a b R : RArea)
    (haw : 0 < a.width) (hah : 0 < a.height) (hbw : 0 < b.width) (hbh : 0 < b.height)
    (hrow : a.y ≤ b.y + b.height - 1 ∧ b.y ≤ a.y + a.height - 1)
    (hal : (a.y = b.y ∧ a.y + a.height - 1 ≠ b.y + b.height - 1) ∨
      (a.y ≠ b.y ∧ a.y + a.height - 1 = b.y + b.height - 1))
    (hab : ContainsArea a b = false) (hba : ContainsArea b a = false)
    (hcov : ∀ px py : Int, RAreaContainsXY R px py = true ↔
      (RAreaContainsXY a px py = true ∨ RAreaContainsXY b px py = true)) : False := by
  rw [containsArea_eq_false_iff] at hab hba
  simp only [containsXY_iff] at hcov
  obtain ⟨ax, ay, aw, ah⟩ := a
  obtain ⟨bx, byy, bw, bh⟩ := b
  obtain ⟨rx, ry, rw, rh⟩ := R
  simp only at *
  have a1 := (hcov ax ay).mpr (Or.inl (by omega))
  have a2 := (hcov (ax + aw - 1) (ay + ah - 1)).mpr (Or.inl (by omega))
  have b1 := (hcov bx byy).mpr (Or.inr (by omega))
  have b2 := (hcov (bx + bw - 1) (byy + bh - 1)).mpr (Or.inr (by omega))
  have c1 := (hcov (min ax bx) (min ay byy)).mp (by omega)
  have c2 := (hcov (max (ax + aw - 1) (bx + bw - 1)) (min ay byy)).mp (by omega)
  have c3 := (hcov (min ax bx) (max (ay + ah - 1) (byy + bh - 1))).mp (by omega)
  have c4 := (hcov (max (ax + aw - 1) (bx + bw - 1)) (max (ay + ah - 1) (byy + bh - 1))).mp
    (by omega)
  clear hcov
  omega

/-- Covering no side of a rectangle, as linear inequalities on its four sides. -/
theorem coversSide_eq_false_iff (r s : RArea) :
    CoversSide r s = false ↔
      ¬ ((r.x ≤ s.x ∧ s.x ≤ r.x + r.width - 1 ∧ r.y ≤ s.y ∧ s.y ≤ r.y + r.height - 1) ∧
          (r.x ≤ s.x + s.width - 1 ∧ s.x + s.width - 1 ≤ r.x + r.width - 1 ∧
            r.y ≤ s.y ∧ s.y ≤ r.y + r.height - 1)) ∧
      ¬ ((r.x ≤ s.x ∧ s.x ≤ r.x + r.width - 1 ∧
            r.y ≤ s.y + s.height - 1 ∧ s.y + s.height - 1 ≤ r.y + r.height - 1) ∧
          (r.x ≤ s.x + s.width - 1 ∧ s.x + s.width - 1 ≤ r.x + r.width - 1 ∧
            r.y ≤ s.y + s.height - 1 ∧ s.y + s.height - 1 ≤ r.y + r.height - 1)) ∧
      ¬ ((r.x ≤ s.x ∧ s.x ≤ r.x + r.width - 1 ∧ r.y ≤ s.y ∧ s.y ≤ r.y + r.height - 1) ∧
          (r.x ≤ s.x ∧ s.x ≤ r.x + r.width - 1 ∧
            r.y ≤ s.y + s.height - 1 ∧ s.y + s.height - 1 ≤ r.y + r.height - 1)) ∧
      ¬ ((r.x ≤ s.x + s.width - 1 ∧ s.x + s.width - 1 ≤ r.x + r.width - 1 ∧
            r.y ≤ s.y ∧ s.y ≤ r.y + r.height - 1) ∧
          (r.x ≤ s.x + s.width - 1 ∧ s.x + s.width - 1 ≤ r.x + r.width - 1 ∧
            r.y ≤ s.y + s.height - 1 ∧ s.y + s.height - 1 ≤ r.y + r.height - 1)) := by
  rw [← Bool.not_eq_true, CoversSide]
  simp only [Bool.or_eq_true, Bool.and_eq_true, containsXY_iff, RAreaX2, RAreaY2, not_or,
    and_assoc]

/-- Of two overlapping rectangles at most two sides of `s` lie within the span
of `r` when `r` covers no whole side of `s`. -/
theorem sides_of_not_coversSide (r s : RArea)
    (hI : r.x ≤ s.x + s.width - 1 ∧ s.x ≤ r.x + r.width - 1 ∧
        r.y ≤ s.y + s.height - 1 ∧ s.y ≤ r.y + r.height - 1)
    (h : CoversSide r s = false) :
    ¬ (r.x ≤ s.x ∧ s.x + s.width - 1 ≤ r.x + r.width - 1 ∧ r.y ≤ s.y) ∧
      ¬ (r.x ≤ s.x ∧ s.x + s.width - 1 ≤ r.x + r.width - 1 ∧
        s.y + s.height - 1 ≤ r.y + r.height - 1) ∧
      ¬ (r.y ≤ s.y ∧ s.y + s.height - 1 ≤ r.y + r.height - 1 ∧ r.x ≤ s.x) ∧
      ¬ (r.y ≤ s.y ∧ s.y + s.height - 1 ≤ r.y + r.height - 1 ∧
        s.x + s.width - 1 ≤ r.x + r.width - 1) := by
  rw [coversSide_eq_false_iff] at h
  obtain ⟨h1, h2, h3, h4⟩ := h
  refine ⟨fun k => h1 ?_, fun k => h2 ?_, fun k => h3 ?_, fun k => h4 ?_⟩ <;>
    refine ⟨⟨?_, ?_, ?_, ?_⟩, ?_, ?_, ?_, ?_⟩ <;> omega

/-- Two overlapping rectangles neither of which covers a whole side of the other
form a plus sign or a staircase. -/
theorem cross_config (a b : RArea)
    (hI : RAreaIsIntersect a b = true)
    (hab : CoversSide a b = false) (hba : CoversSide b a = false) :
    PlusShape a b ∨ PlusShape b a ∨ StairLeft a b ∨ StairLeft b a ∨
      StairRight a b ∨ StairRight b a := by
  rw [isIntersect_iff] at hI
  obtain ⟨p1, p2, p3, p4⟩ := sides_of_not_coversSide a b hI hab
  obtain ⟨q1, q2, q3, q4⟩ := sides_of_not_coversSide b a (by omega) hba
  unfold PlusShape StairLeft StairRight
  by_cases k1 : a.x ≤ b.x <;> by_cases k2 : b.x + b.width - 1 ≤ a.x + a.width - 1 <;>
    by_cases k3 : a.y ≤ b.y <;> by_cases k4 : b.y + b.height - 1 ≤ a.y + a.height - 1 <;>
    first
      | (exfalso; omega)
      | (left; omega)
      | (right; left; omega)
      | (right; right; left; omega)
      | (right; right; right; left; omega)
      | (right; right; right; right; left; omega)
      | (right; right; right; right; right; omega)

/-- One rectangle does not cover a plus sign. -/
theorem no_single_tile_plus (a b R : RArea)
    (haw : 0 < a.width) (hah : 0 < a.height) (hbw : 0 < b.width) (hbh : 0 < b.height)
    (hc : PlusShape a b)
    (hcov : ∀ px py : Int, RAreaContainsXY R px py = true ↔
      (RAreaContainsXY a px py = true ∨ RAreaContainsXY b px py = true)) : False := by
  unfold PlusShape at hc
  simp only [containsXY_iff] at hcov
  obtain ⟨ax, ay, aw, ah⟩ := a
  obtain ⟨bx, byy, bw, bh⟩ := b
  obtain ⟨rx, ry, rw, rh⟩ := R
  simp only at *
  have i0 := (hcov (ax) (ay)).mpr (Or.inl (by omega))
  have i1 := (hcov (bx) (byy)).mpr (Or.inr (by omega))
  have o0 := mt (hcov (bx) (ay)).mp (by omega)
  clear hcov
  omega

/-- One rectangle does not cover a staircase. -/
theorem no_single_tile_stairLeft (a b R : RArea)
    (haw : 0 < a.width) (hah : 0 < a.height) (hbw : 0 < b.width) (hbh : 0 < b.height)
    (hc : StairLeft a b)
    (hcov : ∀ px py : Int, RAreaContainsXY R px py = true ↔
      (RAreaContainsXY a px py = true ∨ RAreaContainsXY b px py = true)) : False := by
  unfold StairLeft at hc
  simp only [containsXY_iff] at hcov
  obtain ⟨ax, ay, aw, ah⟩ := a
  obtain ⟨bx, byy, bw, bh⟩ := b
  obtain ⟨rx, ry, rw, rh⟩ := R
  simp only at *
  have i0 := (hcov (ax) (ay)).mpr (Or.inl (by omega))
  have i1 := (hcov (bx + bw - 1) (byy + bh - 1)).mpr (Or.inr (by omega))
  have o0 := mt (hcov (ax) (byy + bh - 1)).mp (by omega)
  clear hcov
  omega

/-- One rectangle does not cover a staircase. -/
theorem no_single_tile_stairRight (a b R : RArea)
    (haw : 0 < a.width) (hah : 0 < a.height) (hbw : 0 < b.width) (hbh : 0 < b.height)
    (hc : StairRight a b)
    (hcov : ∀ px py : Int, RAreaContainsXY R px py = true ↔
      (RAreaContainsXY a px py = true ∨ RAreaContainsXY b px py = true)) : False := by
  unfold StairRight at hc
  simp only [containsXY_iff] at hcov
  obtain ⟨ax, ay, aw, ah⟩ := a
  obtain ⟨bx, byy, bw, bh⟩ := b
  obtain ⟨rx, ry, rw, rh⟩ := R
  simp only at *
  have i0 := (hcov (ax + aw - 1) (ay)).mpr (Or.inl (by omega))
  have i1 := (hcov (bx) (byy + bh - 1)).mpr (Or.inr (by omega))
  have o0 := mt (hcov (ax + aw - 1) (byy + bh - 1)).mp (by omega)
  clear hcov
  omega

/-- Two disjoint rectangles do not cover a plus sign. -/
theorem no_two_tiles_plus (a b R1 R2 : RArea)
    (haw : 0 < a.width) (hah : 0 < a.height) (hbw : 0 < b.width) (hbh : 0 < b.height)
    (hc : PlusShape a b)
    (hcov : ∀ px py : Int,
      (RAreaContainsXY R1 px py = true ∨ RAreaContainsXY R2 px py = true) ↔
        (RAreaContainsXY a px py = true ∨ RAreaContainsXY b px py = true))
    (hdisj : PointDisjoint R1 R2) : False := by
  unfold PlusShape at hc
  simp only [PointDisjoint, containsXY_iff] at hcov hdisj
  obtain ⟨ax, ay, aw, ah⟩ := a
  obtain ⟨bx, byy, bw, bh⟩ := b
  obtain ⟨x1, y1, w1, h1⟩ := R1
  obtain ⟨x2, y2, w2, h2⟩ := R2
  simp only at *
  have i0 := (hcov (ax) (ay)).mpr (Or.inl (by omega))
  have i1 := (hcov (ax) (ay + ah - 1)).mpr (Or.inl (by omega))
  have i2 := (hcov (bx) (byy)).mpr (Or.inr (by omega))
  have i3 := (hcov (bx + bw - 1) (byy)).mpr (Or.inr (by omega))
  have o0 := mt (hcov (bx) (ay)).mp (by omega)
  have o1 := mt (hcov (bx + bw - 1) (ay)).mp (by omega)
  have o2 := mt (hcov (bx) (ay + ah - 1)).mp (by omega)
  have o3 := mt (hcov (bx + bw - 1) (ay + ah - 1)).mp (by omega)
  have d0 := hdisj (ax) (byy)
  clear hdisj
  clear hcov
  rcases i0 with i0 | i0 <;>
    rcases i1 with i1 | i1 <;>
    rcases i2 with i2 | i2 <;>
    rcases i3 with i3 | i3 <;>
    omega

/-- Two disjoint rectangles do not cover a staircase. -/
theorem no_two_tiles_stairLeft (a b R1 R2 : RArea)
    (haw : 0 < a.width) (hah : 0 < a.height) (hbw : 0 < b.width) (hbh : 0 < b.height)
    (hc : StairLeft a b)
    (hcov : ∀ px py : Int,
      (RAreaContainsXY R1 px py = true ∨ RAreaContainsXY R2 px py = true) ↔
        (RAreaContainsXY a px py = true ∨ RAreaContainsXY b px py = true))
    (hdisj : PointDisjoint R1 R2) : False := by
  unfold StairLeft at hc
  simp only [PointDisjoint, containsXY_iff] at hcov hdisj
  obtain ⟨ax, ay, aw, ah⟩ := a
  obtain ⟨bx, byy, bw, bh⟩ := b
  obtain ⟨x1, y1, w1, h1⟩ := R1
  obtain ⟨x2, y2, w2, h2⟩ := R2
  simp only at *
  have i0 := (hcov (ax) (ay)).mpr (Or.inl (by omega))
  have i1 := (hcov (ax + aw - 1) (ay)).mpr (Or.inl (by omega))
  have i2 := (hcov (ax) (ay + ah - 1)).mpr (Or.inl (by omega))
  have i3 := (hcov (bx + bw - 1) (byy + bh - 1)).mpr (Or.inr (by omega))
  have i4 := (hcov (bx) (byy + bh - 1)).mpr (Or.inr (by omega))
  have i5 := (hcov (bx + bw - 1) (byy)).mpr (Or.inr (by omega))
  have o0 := mt (hcov (ax) (byy + bh - 1)).mp (by omega)
  have o1 := mt (hcov (bx + bw - 1) (ay)).mp (by omega)
  have d0 := hdisj (bx) (byy)
  clear hdisj
  clear hcov
  rcases i0 with i0 | i0 <;>
    rcases i1 with i1 | i1 <;>
    rcases i2 with i2 | i2 <;>
    rcases i3 with i3 | i3 <;>
    rcases i4 with i4 | i4 <;>
    rcases i5 with i5 | i5 <;>
    omega

/-- Two disjoint rectangles do not cover a staircase. -/
theorem no_two_tiles_stairRight (a b R1 R2 : RArea)
    (haw : 0 < a.width) (hah : 0 < a.height) (hbw : 0 < b.width) (hbh : 0 < b.height)
    (hc : StairRight a b)
    (hcov : ∀ px py : Int,
      (RAreaContainsXY R1 px py = true ∨ RAreaContainsXY R2 px py = true) ↔
        (RAreaContainsXY a px py = true ∨ RAreaContainsXY b px py = true))
    (hdisj : PointDisjoint R1 R2) : False := by
  unfold StairRight at hc
  simp only [PointDisjoint, containsXY_iff] at hcov hdisj
  obtain ⟨ax, ay, aw, ah⟩ := a
  obtain ⟨bx, byy, bw, bh⟩ := b
  obtain ⟨x1, y1, w1, h1⟩ := R1
  obtain ⟨x2, y2, w2, h2⟩ := R2
  simp only at *
  have i0 := (hcov (ax + aw - 1) (ay)).mpr (Or.inl (by omega))
  have i1 := (hcov (ax) (ay)).mpr (Or.inl (by omega))
  have i2 := (hcov (ax + aw - 1) (ay + ah - 1)).mpr (Or.inl (by omega))
  have i3 := (hcov (bx) (byy + bh - 1)).mpr (Or.inr (by omega))
  have i4 := (hcov (bx + bw - 1) (byy + bh - 1)).mpr (Or.inr (by omega))
  have i5 := (hcov (bx) (byy)).mpr (Or.inr (by omega))
  have o0 := mt (hcov (ax + aw - 1) (byy + bh - 1)).mp (by omega)
  have o1 := mt (hcov (bx) (ay)).mp (by omega)
  have d0 := hdisj (ax) (byy)
  clear hdisj
  clear hcov
  rcases i0 with i0 | i0 <;>
    rcases i1 with i1 | i1 <;>
    rcases i2 with i2 | i2 <;>
    rcases i3 with i3 | i3 <;>
    rcases i4 with i4 | i4 <;>
    rcases i5 with i5 | i5 <;>
    omega

/-- The number of strips of `RAreaHorizontalUnion`: one, or, where the two
rectangles share a row, one more for tops that differ and one more for bottoms
that differ. -/
theorem hu_length_aux (a b : RArea) (l : RAreaList)
    (h : RAreaHorizontalUnion a b = some l) :
    l.length = 1 ∨
      ((a.y ≤ b.y + b.height - 1 ∧ b.y ≤ a.y + a.height - 1) ∧
        ((l.length = 2 ∧ ((a.y = b.y ∧ a.y + a.height - 1 ≠ b.y + b.height - 1) ∨
            (a.y ≠ b.y ∧ a.y + a.height - 1 = b.y + b.height - 1))) ∨
          (l.length = 3 ∧ a.y ≠ b.y ∧ a.y + a.height - 1 ≠ b.y + b.height - 1))) := by
  obtain ⟨ax, ay, aw, ah⟩ := a
  obtain ⟨bx, byy, bw, bh⟩ := b
  unfold RAreaHorizontalUnion at h
  simp only [RAreaListNew, RAreaListAdd, RAreaNewStatic, RAreaNew, RAreaX2, RAreaY2] at h
  by_cases hlt : ay < byy
  · simp only [hlt, if_true] at h
    split_ifs at h <;>
      simp only [Option.some.injEq, List.nil_append, List.cons_append, reduceCtorEq] at h <;>
      subst h <;>
      simp only [List.length_cons, List.length_nil, true_or, true_and] <;>
      omega
  · simp only [hlt, if_false] at h
    split_ifs at h <;>
      simp only [Option.some.injEq, List.nil_append, List.cons_append, reduceCtorEq] at h <;>
      subst h <;>
      simp only [List.length_cons, List.length_nil, true_or, true_and] <;>
      omega

/-- A rectangle that contains another one tiles their union by itself. -/
theorem tiles_of_containsArea (r s : RArea) (hrw : 0 < r.width) (hrh : 0 < r.height)
    (h : ContainsArea r s = true) : TilesUnion [r] r s ∧ TilesUnion [r] s r := by
  simp only [ContainsArea, Bool.and_eq_true, containsXY_iff, RAreaX2, RAreaY2] at h
  refine ⟨⟨?_, ?_, ?_⟩, ⟨?_, ?_, ?_⟩⟩
  · intro t ht
    simp only [List.mem_singleton] at ht
    subst ht
    exact ⟨hrw, hrh⟩
  · simp
  · intro px py
    simp only [List.mem_singleton, exists_eq_left, containsXY_iff]
    omega
  · intro t ht
    simp only [List.mem_singleton] at ht
    subst ht
    exact ⟨hrw, hrh⟩
  · simp
  · intro px py
    simp only [List.mem_singleton, exists_eq_left, containsXY_iff]
    omega

/-- The union of two rectangles is tiled by a list whatever the order in which
the two are given. -/
theorem tilesUnion_comm (rs : List RArea) (a b : RArea) (h : TilesUnion rs a b) :
    TilesUnion rs b a :=
  ⟨h.1, h.2.1, fun px py => (h.2.2 px py).trans or_comm⟩

/-- A list of one or two rectangles of positive width and height, disjoint and
covering the union, tiles it. -/
theorem tilesUnion_pair (r t a b : RArea)
    (hr : 0 < r.width ∧ 0 < r.height) (ht : 0 < t.width ∧ 0 < t.height)
    (hd : PointDisjoint r t)
    (hcov : ∀ px py : Int,
      (RAreaContainsXY r px py = true ∨ RAreaContainsXY t px py = true) ↔
        (RAreaContainsXY a px py = true ∨ RAreaContainsXY b px py = true)) :
    TilesUnion [r, t] a b := by
  refine ⟨?_, ?_, ?_⟩
  · intro u hu
    simp only [List.mem_cons, List.mem_singleton, List.not_mem_nil, or_false] at hu
    rcases hu with rfl | rfl
    · exact hr
    · exact ht
  · simp only [List.pairwise_cons, List.mem_singleton, forall_eq, List.not_mem_nil,
      false_imp_iff, implies_true, List.Pairwise.nil, and_true]
    exact hd
  · intro px py
    rw [← hcov px py]
    simp only [List.mem_cons, List.mem_singleton, List.not_mem_nil, or_false,
      exists_eq_or_imp, exists_eq_left]

/-- Two rectangles that do not overlap tile their union. -/
theorem tiles_of_not_intersect (a b : RArea)
    (haw : 0 < a.width) (hah : 0 < a.height) (hbw : 0 < b.width) (hbh : 0 < b.height)
    (h : ¬ RAreaIsIntersect a b = true) : TilesUnion [a, b] a b := by
  rw [isIntersect_iff] at h
  refine tilesUnion_pair a b a b ⟨haw, hah⟩ ⟨hbw, hbh⟩ ?_ (fun px py => Iff.rfl)
  intro px py
  simp only [containsXY_iff]
  omega

/-- When `r` covers a whole side of `s`, what is left of `s` outside `r` is
empty or one rectangle, so that at most two rectangles tile the union. -/
theorem tiles_of_coversSide (r s : RArea)
    (hrw : 0 < r.width) (hrh : 0 < r.height) (hsw : 0 < s.width) (hsh : 0 < s.height)
    (h : CoversSide r s = true) :
    ∃ rs : List RArea, rs.length ≤ 2 ∧ TilesUnion rs r s := by
  by_cases hc : ContainsArea r s = true
  · exact ⟨[r], by simp, (tiles_of_containsArea r s hrw hrh hc).1⟩
  · simp only [ContainsArea, Bool.and_eq_true, containsXY_iff, RAreaX2, RAreaY2] at hc
    simp only [CoversSide, Bool.or_eq_true, Bool.and_eq_true, containsXY_iff, RAreaX2,
      RAreaY2] at h
    rcases h with ((h | h) | h) | h
    · refine ⟨[r, ⟨s.x, r.y + r.height, s.width, s.y + s.height - (r.y + r.height)⟩],
        le_refl _, tilesUnion_pair _ _ _ _ ⟨hrw, hrh⟩ ⟨hsw, ?_⟩ ?_ ?_⟩
      · simp only; omega
      · intro px py
        simp only [containsXY_iff]
        omega
      · intro px py
        simp only [containsXY_iff]
        omega
    · refine ⟨[r, ⟨s.x, s.y, s.width, r.y - s.y⟩],
        le_refl _, tilesUnion_pair _ _ _ _ ⟨hrw, hrh⟩ ⟨hsw, ?_⟩ ?_ ?_⟩
      · simp only; omega
      · intro px py
        simp only [containsXY_iff]
        omega
      · intro px py
        simp only [containsXY_iff]
        omega
    · refine ⟨[r, ⟨r.x + r.width, s.y, s.x + s.width - (r.x + r.width), s.height⟩],
        le_refl _, tilesUnion_pair _ _ _ _ ⟨hrw, hrh⟩ ⟨?_, hsh⟩ ?_ ?_⟩
      · simp only; omega
      · intro px py
        simp only [containsXY_iff]
        omega
      · intro px py
        simp only [containsXY_iff]
        omega
    · refine ⟨[r, ⟨s.x, s.y, r.x - s.x, s.height⟩],
        le_refl _, tilesUnion_pair _ _ _ _ ⟨hrw, hrh⟩ ⟨?_, hsh⟩ ?_ ?_⟩
      · simp only; omega
      · intro px py
        simp only [containsXY_iff]
        omega
      · intro px py
        simp only [containsXY_iff]
        omega

/-- Where the condition of minimality fails, fewer rectangles than strips tile
the union. -/
theorem fewer_tiles_of_not (a b : RArea) (l : RAreaList)
    (haw : 0 < a.width) (hah : 0 < a.height) (hbw : 0 < b.width) (hbh : 0 < b.height)
    (h : RAreaHorizontalUnion a b = some l)
    (hn : ¬ (l.length = 1 ∨
      (l.length = 2 ∧ ContainsArea a b = false ∧ ContainsArea b a = false) ∨
      (l.length = 3 ∧ RAreaIsIntersect a b = true ∧
        CoversSide a b = false ∧ CoversSide b a = false))) :
    ∃ rs : List RArea, rs.length < l.length ∧ TilesUnion rs a b := by
  simp only [not_or, not_and, Bool.not_eq_false] at hn
  obtain ⟨n1, n2, n3⟩ := hn
  rcases hu_length_aux a b l h with k | ⟨-, ⟨k, -⟩ | ⟨k, -⟩⟩
  · exact absurd k n1
  · by_cases hab : ContainsArea a b = false
    · have hba := n2 k hab
      exact ⟨[b], by simp [k], (tiles_of_containsArea b a hbw hbh hba).2⟩
    · rw [Bool.not_eq_false] at hab
      exact ⟨[a], by simp [k], (tiles_of_containsArea a b haw hah hab).1⟩
  · by_cases hI : RAreaIsIntersect a b = true
    · by_cases hab : CoversSide a b = false
      · have hba := n3 k hI hab
        obtain ⟨rs, hlen, ht⟩ := tiles_of_coversSide b a hbw hbh haw hah hba
        exact ⟨rs, by omega, tilesUnion_comm rs b a ht⟩
      · rw [Bool.not_eq_false] at hab
        obtain ⟨rs, hlen, ht⟩ := tiles_of_coversSide a b haw hah hbw hbh hab
        exact ⟨rs, by omega, ht⟩
    · exact ⟨[a, b], by simp [k], tiles_of_not_intersect a b haw hah hbw hbh hI⟩

/-- With the condition of minimality, fewer rectangles than strips do not tile the
union. -/
theorem hu_minimal_aux (a b : RArea) (l : RAreaList)
    (haw : 0 < a.width) (hah : 0 < a.height) (hbw : 0 < b.width) (hbh : 0 < b.height)
    (h : RAreaHorizontalUnion a b = some l)
    (hc : l.length = 1 ∨
      (l.length = 2 ∧ ContainsArea a b = false ∧ ContainsArea b a = false) ∨
      (l.length = 3 ∧ RAreaIsIntersect a b = true ∧
        CoversSide a b = false ∧ CoversSide b a = false)) :
    ¬ ∃ rs : List RArea, rs.length < l.length ∧ TilesUnion rs a b := by
  rintro ⟨rs, hlen, -, hdis, hcov⟩
  have hA : RAreaContainsXY a a.x a.y = true := by
    rw [containsXY_iff]; omega
  rcases rs with _ | ⟨R1, _ | ⟨R2, _ | ⟨R3, rest⟩⟩⟩
  · have := (hcov a.x a.y).mpr (Or.inl hA)
    simp at this
  · have hcov1 : ∀ px py : Int, RAreaContainsXY R1 px py = true ↔
        (RAreaContainsXY a px py = true ∨ RAreaContainsXY b px py = true) := by
      intro px py
      rw [← hcov px py]
      simp
    rcases hc with h1 | ⟨h2, hab, hba⟩ | ⟨h3, hI, hab, hba⟩
    · rw [h1] at hlen
      simp at hlen
    · rcases hu_length_aux a b l h with k | ⟨hrow, ⟨-, hal⟩ | ⟨k, -⟩⟩
      · omega
      · exact no_single_tile_two a b R1 haw hah hbw hbh hrow hal hab hba hcov1
      · omega
    · have hcov1s : ∀ px py : Int, RAreaContainsXY R1 px py = true ↔
          (RAreaContainsXY b px py = true ∨ RAreaContainsXY a px py = true) :=
        fun px py => (hcov1 px py).trans or_comm
      rcases cross_config a b hI hab hba with c | c | c | c | c | c
      · exact no_single_tile_plus a b R1 haw hah hbw hbh c hcov1
      · exact no_single_tile_plus b a R1 hbw hbh haw hah c hcov1s
      · exact no_single_tile_stairLeft a b R1 haw hah hbw hbh c hcov1
      · exact no_single_tile_stairLeft b a R1 hbw hbh haw hah c hcov1s
      · exact no_single_tile_stairRight a b R1 haw hah hbw hbh c hcov1
      · exact no_single_tile_stairRight b a R1 hbw hbh haw hah c hcov1s
  · have hcov2 : ∀ px py : Int,
        (RAreaContainsXY R1 px py = true ∨ RAreaContainsXY R2 px py = true) ↔
          (RAreaContainsXY a px py = true ∨ RAreaContainsXY b px py = true) := by
      intro px py
      rw [← hcov px py]
      simp
    have hdis2 : PointDisjoint R1 R2 := by
      simpa using hdis
    rcases hc with h1 | ⟨h2, -, -⟩ | ⟨h3, hI, hab, hba⟩
    · rw [h1] at hlen
      simp at hlen
    · rw [h2] at hlen
      simp at hlen
    · have hcov2s : ∀ px py : Int,
          (RAreaContainsXY R1 px py = true ∨ RAreaContainsXY R2 px py = true) ↔
            (RAreaContainsXY b px py = true ∨ RAreaContainsXY a px py = true) :=
        fun px py => (hcov2 px py).trans or_comm
      rcases cross_config a b hI hab hba with c | c | c | c | c | c
      · exact no_two_tiles_plus a b R1 R2 haw hah hbw hbh c hcov2 hdis2
      · exact no_two_tiles_plus b a R1 R2 hbw hbh haw hah c hcov2s hdis2
      · exact no_two_tiles_stairLeft a b R1 R2 haw hah hbw hbh c hcov2 hdis2
      · exact no_two_tiles_stairLeft b a R1 R2 hbw hbh haw hah c hcov2s hdis2
      · exact no_two_tiles_stairRight a b R1 R2 haw hah hbw hbh c hcov2 hdis2
      · exact no_two_tiles_stairRight b a R1 R2 hbw hbh haw hah c hcov2s hdis2
  · have hl := (hu_length_aux a b l h)
    simp only [List.length_cons] at hlen
    omega

/-- When `RAreaHorizontalUnion` returns `none`, as linear inequalities. -/
theorem hu_none_iff (a b : RArea) :
    RAreaHorizontalUnion a b = none ↔
      (b.x + b.width - 1 < a.x - 1 ∨ b.x > a.x + a.width - 1 + 1 ∨
        ((b.y + b.height - 1 < a.y ∨ b.y > a.y + a.height - 1) ∧
          ¬ (a.x = b.x ∧ a.width = b.width ∧
            (b.y + b.height - 1 + 1 = a.y ∨ a.y + a.height - 1 + 1 = b.y)))) := by
  unfold RAreaHorizontalUnion
  simp only [RAreaX2, RAreaY2]
  split
  · simp only [true_iff]; omega
  · split
    · simp only [true_iff]; omega
    · split
      · split_ifs <;> simp only [reduceCtorEq, false_iff, true_iff] <;> omega
      · simp only [reduceCtorEq, false_iff]
        omega

/-- When `RAreaVerticalUnion` returns `none`, as linear inequalities. -/
theorem vu_none_iff (a b : RArea) :
    RAreaVerticalUnion a b = none ↔
      (b.y + b.height - 1 < a.y - 1 ∨ b.y > a.y + a.height - 1 + 1 ∨
        ((b.x + b.width - 1 < a.x ∨ b.x > a.x + a.width - 1) ∧
          ¬ (a.y = b.y ∧ a.height = b.height ∧
            (b.x + b.width - 1 + 1 = a.x ∨ a.x + a.width - 1 + 1 = b.x)))) := by
  unfold RAreaVerticalUnion
  simp only [RAreaX2, RAreaY2]
  split
  · simp only [true_iff]; omega
  · split
    · simp only [true_iff]; omega
    · split
      · split_ifs <;> simp only [reduceCtorEq, false_iff, true_iff] <;> omega
      · simp only [reduceCtorEq, false_iff]
        omega

/-- `RAreaVerticalUnion` is `RAreaHorizontalUnion` with the two axes swapped. -/
theorem vu_eq_mirror_aux (a b : RArea) :
    RAreaVerticalUnion a b = mirroredHorizontalUnion a b := by
  obtain ⟨ax, ay, aw, ah⟩ := a
  obtain ⟨bx, byy, bw, bh⟩ := b
  unfold mirroredHorizontalUnion RAreaVerticalUnion RAreaHorizontalUnion
  simp only [transpose, RAreaListNew, RAreaListAdd, RAreaNewStatic, RAreaNew, RAreaX2, RAreaY2]
  by_cases h1 : byy + bh - 1 < ay - 1
  · simp only [h1, if_true, Option.map_none']
  simp only [h1, if_false]
  by_cases h2 : byy > ay + ah - 1 + 1
  · simp only [h2, if_true, Option.map_none']
  simp only [h2, if_false]
  by_cases h3 : bx + bw - 1 < ax ∨ bx > ax + aw - 1
  · simp only [h3, if_true]
    split_ifs <;> simp only [Option.map_some', Option.map_none', List.map_cons, List.map_nil,
      transpose]
  simp only [h3, if_false]
  by_cases hlt : ax < bx
  · simp only [hlt, if_true]
    split_ifs <;> simp only [List.nil_append, List.cons_append,
        Option.map_some', List.map_cons, List.map_nil, transpose]
  · simp only [hlt, if_false]
    split_ifs <;> simp only [List.nil_append, List.cons_append,
        Option.map_some', List.map_cons, List.map_nil, transpose]

/-- The horizontal union does not depend on the order of its arguments, for
valid rectangles. -/
theorem hu_comm_aux (a b : RArea)
    (haw : 0 ≤ a.width) (hah : 0 ≤ a.height) (hbw : 0 ≤ b.width) (hbh : 0 ≤ b.height) :
    RAreaHorizontalUnion a b = RAreaHorizontalUnion b a := by
  obtain ⟨ax, ay, aw, ah⟩ := a
  obtain ⟨bx, byy, bw, bh⟩ := b
  simp only at haw hah hbw hbh
  unfold RAreaHorizontalUnion
  simp only [RAreaListNew, RAreaListAdd, RAreaNewStatic, RAreaNew, RAreaX2, RAreaY2]
  have k1 : (ax + aw - 1 < bx - 1) ↔ (bx > ax + aw - 1 + 1) := by omega
  have k2 : (ax > bx + bw - 1 + 1) ↔ (bx + bw - 1 < ax - 1) := by omega
  have k3 : (ay + ah - 1 < byy ∨ ay > byy + bh - 1) ↔
      (byy + bh - 1 < ay ∨ byy > ay + ah - 1) := by omega
  simp only [k1, k2, k3]
  by_cases c1 : bx + bw - 1 < ax - 1
  · simp only [c1, if_true, ite_self]
  simp only [c1, if_false]
  by_cases c2 : bx > ax + aw - 1 + 1
  · simp only [c2, if_true]
  simp only [c2, if_false]
  by_cases c3 : byy + bh - 1 < ay ∨ byy > ay + ah - 1
  · simp only [c3, if_true]
    split_ifs <;>
      first
        | rfl
        | (exfalso; omega)
        | (simp only [Option.some.injEq, List.cons.injEq, RArea.mk.injEq, and_true, true_and,
            List.nil_append, List.cons_append]
           omega)
  · simp only [c3, if_false]
    rcases lt_trichotomy ay byy with hlt | heq | hgt
    · have n : ¬ byy < ay := by omega
      simp only [hlt, n, if_true, if_false]
      split_ifs <;>
      first
        | rfl
        | (exfalso; omega)
        | (simp only [Option.some.injEq, List.cons.injEq, RArea.mk.injEq, and_true, true_and,
            List.nil_append, List.cons_append]
           omega)
    · have n1 : ¬ ay < byy := by omega
      have n2 : ¬ byy < ay := by omega
      simp only [n1, n2, if_false]
      split_ifs <;>
      first
        | rfl
        | (exfalso; omega)
        | (simp only [Option.some.injEq, List.cons.injEq, RArea.mk.injEq, and_true, true_and,
            List.nil_append, List.cons_append]
           omega)
    · have n : ¬ ay < byy := by omega
      simp only [hgt, n, if_true, if_false]
      split_ifs <;>
      first
        | rfl
        | (exfalso; omega)
        | (simp only [Option.some.injEq, List.cons.injEq, RArea.mk.injEq, and_true, true_and,
            List.nil_append, List.cons_append]
           omega)

/-- The strips of `RAreaHorizontalUnion` are stacked from the top of the upper
rectangle to the bottom of the lower one, each one starting right below the one
before. -/
theorem hu_order_aux (a b : RArea) (l : RAreaList)
    (haw : 0 < a.width) (hah : 0 < a.height) (hbw : 0 < b.width) (hbh : 0 < b.height)
    (h : RAreaHorizontalUnion a b = some l) :
    l.head?.map (fun r => r.y) = some (min a.y b.y) ∧
      l.Chain' (fun r s => s.y = RAreaY2 r + 1) ∧
      l.getLast?.map RAreaY2 = some (max (RAreaY2 a) (RAreaY2 b)) := by
  obtain ⟨ax, ay, aw, ah⟩ := a
  obtain ⟨bx, byy, bw, bh⟩ := b
  simp only at haw hah hbw hbh
  unfold RAreaHorizontalUnion at h
  simp only [RAreaListNew, RAreaListAdd, RAreaNewStatic, RAreaNew, RAreaX2, RAreaY2] at h
  by_cases hlt : ay < byy
  · simp only [hlt, if_true] at h
    split_ifs at h <;>
      simp only [Option.some.injEq, List.nil_append, List.cons_append, reduceCtorEq] at h <;>
      subst h <;>
      simp only [List.head?_cons, Option.map_some', List.chain'_cons, List.chain'_singleton,
        List.getLast?_cons_cons, List.getLast?_singleton, Option.some.injEq, RAreaY2,
        true_and, and_true] <;>
      omega
  · simp only [hlt, if_false] at h
    split_ifs at h <;>
      simp only [Option.some.injEq, List.nil_append, List.cons_append, reduceCtorEq] at h <;>
      subst h <;>
      simp only [List.head?_cons, Option.map_some', List.chain'_cons, List.chain'_singleton,
        List.getLast?_cons_cons, List.getLast?_singleton, Option.some.injEq, RAreaY2,
        true_and, and_true] <;>
      omega

/-! ## Theorems -/

/-- C1: for two rectangles of positive width and height for which
`RAreaHorizontalUnion` returns a list, no point lies in two strips at different
positions of the list, and a point lies in some strip exactly when it lies in
one of the two rectangles. -/
theorem horizontalUnion_partitions (a b : RArea) (l : RAreaList)
    (haw : 0 < a.width) (hah : 0 < a.height) (hbw : 0 < b.width) (hbh : 0 < b.height)
    (h : RAreaHorizontalUnion a b = some l) :
    (∀ i j : Fin l.length, i ≠ j → ∀ px py : Int,
        ¬ (RAreaContainsXY (l.get i) px py = true ∧ RAreaContainsXY (l.get j) px py = true)) ∧
      ∀ px py : Int, (∃ r ∈ l, RAreaContainsXY r px py = true) ↔
        (RAreaContainsXY a px py = true ∨ RAreaContainsXY b px py = true) :=
  ⟨fun i j hij => pointDisjoint_of_pairwise l (hu_partitions_aux a b l haw hah hbw hbh h).1 i j hij,
    (hu_partitions_aux a b l haw hah hbw hbh h).2⟩

/-- C1 at `a = (0,0,10,5)`, `b = (3,4,4,10)`, where three strips are returned. -/
theorem horizontalUnion_partitions_witness :
    RAreaHorizontalUnion ⟨0, 0, 10, 5⟩ ⟨3, 4, 4, 10⟩
        = some [⟨0, 0, 10, 4⟩, ⟨0, 4, 10, 1⟩, ⟨3, 5, 4, 9⟩] ∧
      ((∀ i j : Fin 3, i ≠ j → ∀ px py : Int,
        ¬ (RAreaContainsXY (([⟨0, 0, 10, 4⟩, ⟨0, 4, 10, 1⟩, ⟨3, 5, 4, 9⟩] : List RArea).get i)
              px py = true ∧
            RAreaContainsXY (([⟨0, 0, 10, 4⟩, ⟨0, 4, 10, 1⟩, ⟨3, 5, 4, 9⟩] : List RArea).get j)
              px py = true)) ∧
      ∀ px py : Int,
        (∃ r ∈ ([⟨0, 0, 10, 4⟩, ⟨0, 4, 10, 1⟩, ⟨3, 5, 4, 9⟩] : List RArea),
            RAreaContainsXY r px py = true) ↔
          (RAreaContainsXY ⟨0, 0, 10, 5⟩ px py = true ∨
            RAreaContainsXY ⟨3, 4, 4, 10⟩ px py = true)) :=
  ⟨by decide,
    horizontalUnion_partitions ⟨0, 0, 10, 5⟩ ⟨3, 4, 4, 10⟩
      [⟨0, 0, 10, 4⟩, ⟨0, 4, 10, 1⟩, ⟨3, 5, 4, 9⟩]
      (by decide) (by decide) (by decide) (by decide) (by decide)⟩

/-- C2: for two rectangles of positive width and height for which
`RAreaVerticalUnion` returns a list, no point lies in two strips at different
positions of the list, and a point lies in some strip exactly when it lies in
one of the two rectangles. -/
theorem verticalUnion_partitions (a b : RArea) (l : RAreaList)
    (haw : 0 < a.width) (hah : 0 < a.height) (hbw : 0 < b.width) (hbh : 0 < b.height)
    (h : RAreaVerticalUnion a b = some l) :
    (∀ i j : Fin l.length, i ≠ j → ∀ px py : Int,
        ¬ (RAreaContainsXY (l.get i) px py = true ∧ RAreaContainsXY (l.get j) px py = true)) ∧
      ∀ px py : Int, (∃ r ∈ l, RAreaContainsXY r px py = true) ↔
        (RAreaContainsXY a px py = true ∨ RAreaContainsXY b px py = true) :=
  ⟨fun i j hij => pointDisjoint_of_pairwise l (vu_partitions_aux a b l haw hah hbw hbh h).1 i j hij,
    (vu_partitions_aux a b l haw hah hbw hbh h).2⟩

/-- C2 at `a = (0,0,10,5)`, `b = (3,5,4,10)`, where three strips are returned. -/
theorem verticalUnion_partitions_witness :
    RAreaVerticalUnion ⟨0, 0, 10, 5⟩ ⟨3, 5, 4, 10⟩
        = some [⟨0, 0, 3, 5⟩, ⟨3, 0, 4, 15⟩, ⟨7, 0, 3, 5⟩] ∧
      ((∀ i j : Fin 3, i ≠ j → ∀ px py : Int,
        ¬ (RAreaContainsXY (([⟨0, 0, 3, 5⟩, ⟨3, 0, 4, 15⟩, ⟨7, 0, 3, 5⟩] : List RArea).get i)
              px py = true ∧
            RAreaContainsXY (([⟨0, 0, 3, 5⟩, ⟨3, 0, 4, 15⟩, ⟨7, 0, 3, 5⟩] : List RArea).get j)
              px py = true)) ∧
      ∀ px py : Int,
        (∃ r ∈ ([⟨0, 0, 3, 5⟩, ⟨3, 0, 4, 15⟩, ⟨7, 0, 3, 5⟩] : List RArea),
            RAreaContainsXY r px py = true) ↔
          (RAreaContainsXY ⟨0, 0, 10, 5⟩ px py = true ∨
            RAreaContainsXY ⟨3, 5, 4, 10⟩ px py = true)) :=
  ⟨by decide,
    verticalUnion_partitions ⟨0, 0, 10, 5⟩ ⟨3, 5, 4, 10⟩
      [⟨0, 0, 3, 5⟩, ⟨3, 0, 4, 15⟩, ⟨7, 0, 3, 5⟩]
      (by decide) (by decide) (by decide) (by decide) (by decide)⟩

/-- C3: for two rectangles of positive width and height, a list returned by
`RAreaHorizontalUnion` or by `RAreaVerticalUnion` has at least one and at most
three rectangles, each of positive width and positive height. -/
theorem union_strips_count_and_positive (a b : RArea) (l : RAreaList)
    (haw : 0 < a.width) (hah : 0 < a.height) (hbw : 0 < b.width) (hbh : 0 < b.height)
    (h : RAreaHorizontalUnion a b = some l ∨ RAreaVerticalUnion a b = some l) :
    1 ≤ l.length ∧ l.length ≤ 3 ∧ ∀ r ∈ l, 0 < r.width ∧ 0 < r.height := by
  rcases h with h | h
  · exact hu_shape_aux a b l haw hah hbw hbh h
  · exact vu_shape_aux a b l haw hah hbw hbh h

/-- C3 at `a = (0,0,10,5)`, `b = (3,5,4,10)`, where `RAreaVerticalUnion` returns
three strips. -/
theorem union_strips_count_and_positive_witness :
    1 ≤ ([⟨0, 0, 3, 5⟩, ⟨3, 0, 4, 15⟩, ⟨7, 0, 3, 5⟩] : List RArea).length ∧
      ([⟨0, 0, 3, 5⟩, ⟨3, 0, 4, 15⟩, ⟨7, 0, 3, 5⟩] : List RArea).length ≤ 3 ∧
      ∀ r ∈ ([⟨0, 0, 3, 5⟩, ⟨3, 0, 4, 15⟩, ⟨7, 0, 3, 5⟩] : List RArea),
        0 < r.width ∧ 0 < r.height :=
  union_strips_count_and_positive ⟨0, 0, 10, 5⟩ ⟨3, 5, 4, 10⟩
    [⟨0, 0, 3, 5⟩, ⟨3, 0, 4, 15⟩, ⟨7, 0, 3, 5⟩]
    (by decide) (by decide) (by decide) (by decide) (Or.inr (by decide))

/-- C4: area law. For two valid rectangles for which `RAreaHorizontalUnion`
(respectively `RAreaVerticalUnion`) returns a list, the areas of the strips sum
to `area a + area b - area (intersect a b)` when the intersection is valid, and
to `area a + area b` when it is not. -/
theorem union_area_law (a b : RArea) (l : RAreaList)
    (ha : RAreaIsValid a = true) (hb : RAreaIsValid b = true)
    (h : RAreaHorizontalUnion a b = some l ∨ RAreaVerticalUnion a b = some l) :
    (l.map RAreaArea).sum =
      if RAreaIsValid (RAreaIntersect a b) = true
      then RAreaArea a + RAreaArea b - RAreaArea (RAreaIntersect a b)
      else RAreaArea a + RAreaArea b := by
  simp only [RAreaIsValid, Bool.and_eq_true, decide_eq_true_eq] at ha hb
  rcases h with h | h
  · exact hu_area_aux a b l ha.1 ha.2 hb.1 hb.2 h
  · exact vu_area_aux a b l ha.1 ha.2 hb.1 hb.2 h

/-- C4 at `a = (0,0,10,5)`, `b = (3,4,4,10)`: the strips have areas 40, 10 and
36, the rectangles 50 and 40, their intersection 4. -/
theorem union_area_law_witness :
    (([⟨0, 0, 10, 4⟩, ⟨0, 4, 10, 1⟩, ⟨3, 5, 4, 9⟩] : List RArea).map RAreaArea).sum =
      if RAreaIsValid (RAreaIntersect ⟨0, 0, 10, 5⟩ ⟨3, 4, 4, 10⟩) = true
      then RAreaArea ⟨0, 0, 10, 5⟩ + RAreaArea ⟨3, 4, 4, 10⟩
        - RAreaArea (RAreaIntersect ⟨0, 0, 10, 5⟩ ⟨3, 4, 4, 10⟩)
      else RAreaArea ⟨0, 0, 10, 5⟩ + RAreaArea ⟨3, 4, 4, 10⟩ :=
  union_area_law ⟨0, 0, 10, 5⟩ ⟨3, 4, 4, 10⟩ [⟨0, 0, 10, 4⟩, ⟨0, 4, 10, 1⟩, ⟨3, 5, 4, 9⟩]
    (by decide) (by decide) (Or.inl (by decide))

/-- C5, refuted as stated: for `a = (0,0,5,10)` and `b = (0,2,5,3)`, which lies
inside `a`, `RAreaHorizontalUnion` returns three strips, and yet the single
rectangle `a` tiles the union. -/
theorem horizontalUnion_not_minimal :
    RAreaHorizontalUnion ⟨0, 0, 5, 10⟩ ⟨0, 2, 5, 3⟩
        = some [⟨0, 0, 5, 2⟩, ⟨0, 2, 5, 3⟩, ⟨0, 5, 5, 5⟩] ∧
      ([⟨0, 0, 5, 10⟩] : List RArea).length
        < ([⟨0, 0, 5, 2⟩, ⟨0, 2, 5, 3⟩, ⟨0, 5, 5, 5⟩] : List RArea).length ∧
      TilesUnion [⟨0, 0, 5, 10⟩] ⟨0, 0, 5, 10⟩ ⟨0, 2, 5, 3⟩ := by
  refine ⟨by decide, by decide, ?_, ?_, ?_⟩
  · intro r hr
    simp only [List.mem_singleton] at hr
    subst hr
    decide
  · simp
  · intro px py
    simp only [List.mem_singleton, exists_eq_left, containsXY_iff]
    omega

/-- C5, amended: for two rectangles of positive width and height for which
`RAreaHorizontalUnion` returns `n` strips, no collection of fewer than `n`
pairwise disjoint rectangles of positive width and height covers exactly the
points of `a` or `b` if and only if `n = 1`, or `n = 2` and neither rectangle
contains the other, or `n = 3` and the rectangles overlap and neither contains
two adjacent corners (a whole side) of the other. -/
theorem horizontalUnion_minimal_iff (a b : RArea) (l : RAreaList)
    (haw : 0 < a.width) (hah : 0 < a.height) (hbw : 0 < b.width) (hbh : 0 < b.height)
    (h : RAreaHorizontalUnion a b = some l) :
    (¬ ∃ rs : List RArea, rs.length < l.length ∧ TilesUnion rs a b) ↔
      (l.length = 1 ∨
        (l.length = 2 ∧ ContainsArea a b = false ∧ ContainsArea b a = false) ∨
        (l.length = 3 ∧ RAreaIsIntersect a b = true ∧
          CoversSide a b = false ∧ CoversSide b a = false)) := by
  constructor
  · intro hmin
    by_contra hn
    exact hmin (fewer_tiles_of_not a b l haw hah hbw hbh h hn)
  · exact hu_minimal_aux a b l haw hah hbw hbh h

/-- C5, amended, at the staircase `a = (0,0,2,2)`, `b = (1,1,2,2)`: three strips
are returned and no two rectangles tile the union. -/
theorem horizontalUnion_minimal_iff_witness :
    RAreaHorizontalUnion ⟨0, 0, 2, 2⟩ ⟨1, 1, 2, 2⟩
        = some [⟨0, 0, 2, 1⟩, ⟨0, 1, 3, 1⟩, ⟨1, 2, 2, 1⟩] ∧
      ¬ ∃ rs : List RArea,
        rs.length < ([⟨0, 0, 2, 1⟩, ⟨0, 1, 3, 1⟩, ⟨1, 2, 2, 1⟩] : List RArea).length ∧
          TilesUnion rs ⟨0, 0, 2, 2⟩ ⟨1, 1, 2, 2⟩ :=
  ⟨by decide,
    (horizontalUnion_minimal_iff ⟨0, 0, 2, 2⟩ ⟨1, 1, 2, 2⟩
      [⟨0, 0, 2, 1⟩, ⟨0, 1, 3, 1⟩, ⟨1, 2, 2, 1⟩]
      (by decide) (by decide) (by decide) (by decide) (by decide)).mpr
      (Or.inr (Or.inr ⟨rfl, by decide, by decide, by decide⟩))⟩

/-- C6, refuted as stated: for `a = (0,0,10,5)` and `b = (3,5,4,10)` the call
`RAreaHorizontalUnion a b` returns `none`, so it returns no list of three
strips. -/
theorem horizontalUnion_staggered_absent :
    RAreaHorizontalUnion ⟨0, 0, 10, 5⟩ ⟨3, 5, 4, 10⟩ = none ∧
      ¬ ∃ l : RAreaList,
        RAreaHorizontalUnion ⟨0, 0, 10, 5⟩ ⟨3, 5, 4, 10⟩ = some l ∧ l.length = 3 := by
  have h : RAreaHorizontalUnion ⟨0, 0, 10, 5⟩ ⟨3, 5, 4, 10⟩ = none := by decide
  refine ⟨h, ?_⟩
  rintro ⟨l, hl, -⟩
  rw [h] at hl
  exact Option.noConfusion hl

/-- C6, amended: `a = (0,0,10,5)` and `b = (3,5,4,10)` touch without sharing a
row (rows 0 to 4 and rows 5 to 14) and differ in `x` and width, so
`RAreaHorizontalUnion a b` returns `none`. With `b` one row higher and one row
taller, `b = (3,4,4,11)`, the two share row 4 and three strips are returned: the
part of `a` above `b`, `(0,0,10,4)`; the shared row at merged width,
`(0,4,10,1)`; the part of `b` below `a`, `(3,5,4,10)`. These do not overlap
pairwise and cover exactly the points of `a` or `b`. -/
theorem horizontalUnion_staggered_amended :
    RAreaHorizontalUnion ⟨0, 0, 10, 5⟩ ⟨3, 5, 4, 10⟩ = none ∧
      RAreaHorizontalUnion ⟨0, 0, 10, 5⟩ ⟨3, 4, 4, 11⟩
        = some [⟨0, 0, 10, 4⟩, ⟨0, 4, 10, 1⟩, ⟨3, 5, 4, 10⟩] ∧
      PointDisjoint ⟨0, 0, 10, 4⟩ ⟨0, 4, 10, 1⟩ ∧
      PointDisjoint ⟨0, 0, 10, 4⟩ ⟨3, 5, 4, 10⟩ ∧
      PointDisjoint ⟨0, 4, 10, 1⟩ ⟨3, 5, 4, 10⟩ ∧
      ∀ px py : Int,
        (RAreaContainsXY ⟨0, 0, 10, 4⟩ px py = true ∨
          RAreaContainsXY ⟨0, 4, 10, 1⟩ px py = true ∨
          RAreaContainsXY ⟨3, 5, 4, 10⟩ px py = true) ↔
        (RAreaContainsXY ⟨0, 0, 10, 5⟩ px py = true ∨
          RAreaContainsXY ⟨3, 4, 4, 11⟩ px py = true) := by
  refine ⟨by decide, by decide, ?_, ?_, ?_, ?_⟩
  · intro px py
    simp only [containsXY_iff]
    omega
  · intro px py
    simp only [containsXY_iff]
    omega
  · intro px py
    simp only [containsXY_iff]
    omega
  · intro px py
    simp only [containsXY_iff]
    omega

/-- C7: two valid rectangles separated by at least one full empty column, or by
at least one full empty row, are merged neither by `RAreaHorizontalUnion` nor by
`RAreaVerticalUnion`: both return `none`. -/
theorem union_absent_of_gap (a b : RArea)
    (ha : RAreaIsValid a = true) (hb : RAreaIsValid b = true)
    (hgap : (RAreaX2 b < a.x - 1 ∨ b.x > RAreaX2 a + 1) ∨
      (RAreaY2 b < a.y - 1 ∨ b.y > RAreaY2 a + 1)) :
    RAreaHorizontalUnion a b = none ∧ RAreaVerticalUnion a b = none := by
  obtain ⟨ax, ay, aw, ah⟩ := a
  obtain ⟨bx, byy, bw, bh⟩ := b
  simp only [RAreaIsValid, Bool.and_eq_true, decide_eq_true_eq, RAreaX2, RAreaY2] at ha hb hgap
  constructor
  · unfold RAreaHorizontalUnion
    simp only [RAreaX2, RAreaY2]
    split
    · rfl
    · split
      · rfl
      · split
        · split_ifs <;> first | rfl | (exfalso; omega)
        · exfalso; omega
  · unfold RAreaVerticalUnion
    simp only [RAreaX2, RAreaY2]
    split
    · rfl
    · split
      · rfl
      · split
        · split_ifs <;> first | rfl | (exfalso; omega)
        · exfalso; omega

/-- C7 at `a = (0,0,5,5)`, `b = (20,20,5,5)`. -/
theorem union_absent_of_gap_witness :
    RAreaHorizontalUnion ⟨0, 0, 5, 5⟩ ⟨20, 20, 5, 5⟩ = none ∧
      RAreaVerticalUnion ⟨0, 0, 5, 5⟩ ⟨20, 20, 5, 5⟩ = none :=
  union_absent_of_gap ⟨0, 0, 5, 5⟩ ⟨20, 20, 5, 5⟩ (by decide) (by decide) (by decide)

/-- C8: side-by-side merge. For `a = (x, y, w1, h)` and `b = (x + w1, y, w2, h)`
with positive `w1`, `w2`, `h`, both `RAreaHorizontalUnion a b` and
`RAreaHorizontalUnion b a` return the one rectangle `(x, y, w1 + w2, h)`. -/
theorem horizontalUnion_side_by_side (x y w1 w2 h : Int)
    (hw1 : 0 < w1) (hw2 : 0 < w2) (hh : 0 < h) :
    RAreaHorizontalUnion ⟨x, y, w1, h⟩ ⟨x + w1, y, w2, h⟩ = some [⟨x, y, w1 + w2, h⟩] ∧
      RAreaHorizontalUnion ⟨x + w1, y, w2, h⟩ ⟨x, y, w1, h⟩ = some [⟨x, y, w1 + w2, h⟩] := by
  unfold RAreaHorizontalUnion
  simp only [RAreaListNew, RAreaListAdd, RAreaNewStatic, RAreaNew, RAreaX2, RAreaY2,
    lt_irrefl, if_false, ne_eq, not_true_eq_false, List.nil_append]
  constructor <;> split_ifs <;>
    first
      | (exfalso; omega)
      | (simp only [Option.some.injEq, List.cons.injEq, RArea.mk.injEq, and_true, true_and]
         omega)

/-- C8 at `a = (0,0,5,10)`, `b = (5,0,5,10)`: the result is `(0,0,10,10)`. -/
theorem horizontalUnion_side_by_side_witness :
    RAreaHorizontalUnion ⟨0, 0, 5, 10⟩ ⟨5, 0, 5, 10⟩ = some [⟨0, 0, 10, 10⟩] ∧
      RAreaHorizontalUnion ⟨5, 0, 5, 10⟩ ⟨0, 0, 5, 10⟩ = some [⟨0, 0, 10, 10⟩] :=
  horizontalUnion_side_by_side 0 0 5 5 10 (by decide) (by decide) (by decide)

/-- C9: for valid rectangles the intersection is valid exactly when the two
rectangles intersect; and for any two rectangles that do not intersect, the
intersection is the sentinel `(-1, -1, -1, -1)`. -/
theorem intersect_valid_iff_intersects (a b : RArea) :
    (RAreaIsValid a = true → RAreaIsValid b = true →
        (RAreaIsValid (RAreaIntersect a b) = true ↔ RAreaIsIntersect a b = true)) ∧
      (RAreaIsIntersect a b = false → RAreaIntersect a b = RAreaInvalid) := by
  constructor
  · intro ha hb
    simp only [RAreaIsValid, Bool.and_eq_true, decide_eq_true_eq] at ha hb
    by_cases hI : RAreaIsIntersect a b = true
    · have hI2 := (isIntersect_iff a b).mp hI
      simp only [RAreaIntersect, hI, if_true, RAreaNew, RAreaIsValid, RAreaX2, RAreaY2,
        Bool.and_eq_true, decide_eq_true_eq, iff_true]
      omega
    · simp [RAreaIntersect, hI, RAreaInvalid, RAreaIsValid]
  · intro hI
    simp [RAreaIntersect, hI]

/-- C9 at `a = (0,0,5,5)`, `b = (10,10,5,5)`: no overlap, the sentinel, which is
not valid. -/
theorem intersect_valid_iff_intersects_witness :
    RAreaIntersect ⟨0, 0, 5, 5⟩ ⟨10, 10, 5, 5⟩ = ⟨-1, -1, -1, -1⟩ ∧
      (RAreaIsValid (RAreaIntersect ⟨0, 0, 5, 5⟩ ⟨10, 10, 5, 5⟩) = true ↔
        RAreaIsIntersect ⟨0, 0, 5, 5⟩ ⟨10, 10, 5, 5⟩ = true) :=
  ⟨(intersect_valid_iff_intersects ⟨0, 0, 5, 5⟩ ⟨10, 10, 5, 5⟩).2 (by decide),
    (intersect_valid_iff_intersects ⟨0, 0, 5, 5⟩ ⟨10, 10, 5, 5⟩).1 (by decide) (by decide)⟩

/-- C10: intersection symmetry. `RAreaIsIntersect a b = RAreaIsIntersect b a`,
and `RAreaIntersect a b` and `RAreaIntersect b a` are the same rectangle, field
for field. -/
theorem intersect_symmetric (a b : RArea) :
    RAreaIsIntersect a b = RAreaIsIntersect b a ∧ RAreaIntersect a b = RAreaIntersect b a := by
  have h1 : RAreaIsIntersect a b = RAreaIsIntersect b a := by
    rw [Bool.eq_iff_iff, isIntersect_iff, isIntersect_iff]
    omega
  refine ⟨h1, ?_⟩
  unfold RAreaIntersect
  rw [h1, max_comm b.x a.x, max_comm b.y a.y, min_comm (RAreaX2 b), min_comm (RAreaY2 b)]

/-- C11: intersection identity. For a rectangle `r` of positive width and
height, `RAreaIntersect r r` is `r`, field for field. -/
theorem intersect_self (r : RArea) (hw : 0 < r.width) (hh : 0 < r.height) :
    RAreaIntersect r r = r := by
  have hI : RAreaIsIntersect r r = true := by
    rw [isIntersect_iff]; omega
  obtain ⟨x, y, w, h⟩ := r
  simp only [RAreaIntersect, hI, if_true, RAreaNew, RAreaX2, RAreaY2, max_self, min_self,
    RArea.mk.injEq, true_and]
  omega

/-- C11 at `r = (2,3,4,5)`. -/
theorem intersect_self_witness :
    RAreaIntersect ⟨2, 3, 4, 5⟩ ⟨2, 3, 4, 5⟩ = ⟨2, 3, 4, 5⟩ :=
  intersect_self ⟨2, 3, 4, 5⟩ (by decide) (by decide)

/-- C12: inclusive-touch overlap. `a = (x, y, w1, h)` and
`b = (x + w1 - 1, y, w2, h)`, with positive `w1`, `w2`, `h`, share exactly the
column `x + w1 - 1`: they intersect, and their intersection is
`(x + w1 - 1, y, 1, h)`. -/
theorem intersect_inclusive_touch (x y w1 w2 h : Int)
    (hw1 : 0 < w1) (hw2 : 0 < w2) (hh : 0 < h) :
    RAreaIsIntersect ⟨x, y, w1, h⟩ ⟨x + w1 - 1, y, w2, h⟩ = true ∧
      RAreaIntersect ⟨x, y, w1, h⟩ ⟨x + w1 - 1, y, w2, h⟩ = ⟨x + w1 - 1, y, 1, h⟩ := by
  have hI : RAreaIsIntersect ⟨x, y, w1, h⟩ ⟨x + w1 - 1, y, w2, h⟩ = true := by
    rw [isIntersect_iff]; simp only; omega
  refine ⟨hI, ?_⟩
  simp only [RAreaIntersect, hI, if_true, RAreaNew, RAreaX2, RAreaY2, RArea.mk.injEq]
  omega

/-- C12 at `a = (0,0,5,5)`, `b = (4,0,5,5)`: the intersection is `(4,0,1,5)`. -/
theorem intersect_inclusive_touch_witness :
    RAreaIsIntersect ⟨0, 0, 5, 5⟩ ⟨4, 0, 5, 5⟩ = true ∧
      RAreaIntersect ⟨0, 0, 5, 5⟩ ⟨4, 0, 5, 5⟩ = ⟨4, 0, 1, 5⟩ :=
  intersect_inclusive_touch 0 0 5 5 5 (by decide) (by decide) (by decide)

/-- C13, refuted as stated: for `a = (0,0,10,5)` and `b = (3,5,4,10)`, of positive
width and height, `RAreaHorizontalUnion` returns `none` and `RAreaVerticalUnion`
does not. -/
theorem union_absent_disagree :
    ¬ (RAreaHorizontalUnion ⟨0, 0, 10, 5⟩ ⟨3, 5, 4, 10⟩ = none ↔
      RAreaVerticalUnion ⟨0, 0, 10, 5⟩ ⟨3, 5, 4, 10⟩ = none) := by
  decide

/-- C13, amended: for two rectangles of positive width and height,
`RAreaHorizontalUnion` returns `none` exactly when `RAreaVerticalUnion` does,
except when the two touch without overlap and are uneven along the touching
edge: flush side by side, sharing a row, with different `y` or height, where
only `RAreaHorizontalUnion` returns a list; or flush one above the other,
sharing a column, with different `x` or width, where only `RAreaVerticalUnion`
returns a list. -/
theorem union_absent_agree (a b : RArea)
    (haw : 0 < a.width) (hah : 0 < a.height) (hbw : 0 < b.width) (hbh : 0 < b.height) :
    ((TouchSideways a b ∧ ¬ (a.y = b.y ∧ a.height = b.height)) →
        RAreaHorizontalUnion a b ≠ none ∧ RAreaVerticalUnion a b = none) ∧
      ((TouchUpDown a b ∧ ¬ (a.x = b.x ∧ a.width = b.width)) →
        RAreaHorizontalUnion a b = none ∧ RAreaVerticalUnion a b ≠ none) ∧
      (¬ (TouchSideways a b ∧ ¬ (a.y = b.y ∧ a.height = b.height)) →
        ¬ (TouchUpDown a b ∧ ¬ (a.x = b.x ∧ a.width = b.width)) →
        (RAreaHorizontalUnion a b = none ↔ RAreaVerticalUnion a b = none)) := by
  simp only [ne_eq, hu_none_iff, vu_none_iff, TouchSideways, TouchUpDown, RAreaX2, RAreaY2]
  refine ⟨?_, ?_, ?_⟩
  · intro h
    constructor <;> omega
  · intro h
    constructor <;> omega
  · intro h1 h2
    constructor <;> intro h3 <;> omega

/-- C13, amended, at `a = (0,0,10,5)`, `b = (3,5,4,10)`: `b` is flush below `a`,
narrower, and only the vertical union returns a list. -/
theorem union_absent_agree_witness :
    RAreaHorizontalUnion ⟨0, 0, 10, 5⟩ ⟨3, 5, 4, 10⟩ = none ∧
      RAreaVerticalUnion ⟨0, 0, 10, 5⟩ ⟨3, 5, 4, 10⟩ ≠ none :=
  (union_absent_agree ⟨0, 0, 10, 5⟩ ⟨3, 5, 4, 10⟩
    (by decide) (by decide) (by decide) (by decide)).2.1
    ⟨by simp [TouchUpDown, RAreaX2, RAreaY2], by simp⟩

/-- C14: `RAreaHorizontalUnion self other` returns `none` exactly when there is
an empty column between the two rectangles, or they share no row and are not
two rectangles of equal `x` and width, one flush above the other. -/
theorem horizontalUnion_absent_iff (self other : RArea) :
    RAreaHorizontalUnion self other = none ↔
      (RAreaX2 other < self.x - 1 ∨ other.x > RAreaX2 self + 1 ∨
        ((RAreaY2 other < self.y ∨ other.y > RAreaY2 self) ∧
          ¬ (self.x = other.x ∧ self.width = other.width ∧
            (RAreaY2 other + 1 = self.y ∨ RAreaY2 self + 1 = other.y)))) := by
  unfold RAreaHorizontalUnion
  split
  · simp only [true_iff]; omega
  · split
    · simp only [true_iff]; omega
    · split
      · split_ifs <;> simp only [reduceCtorEq, false_iff, true_iff] <;> omega
      · simp only [reduceCtorEq, false_iff]
        omega

/-- C15: stacked flush merge. For `a = (x, y, w, h1)` and `b = (x, y + h1, w, h2)`
with positive `w`, `h1`, `h2`, both `RAreaHorizontalUnion a b` and
`RAreaHorizontalUnion b a` return the one rectangle `(x, y, w, h1 + h2)`. -/
theorem horizontalUnion_stacked (x y w h1 h2 : Int)
    (hw : 0 < w) (hh1 : 0 < h1) (hh2 : 0 < h2) :
    RAreaHorizontalUnion ⟨x, y, w, h1⟩ ⟨x, y + h1, w, h2⟩ = some [⟨x, y, w, h1 + h2⟩] ∧
      RAreaHorizontalUnion ⟨x, y + h1, w, h2⟩ ⟨x, y, w, h1⟩ = some [⟨x, y, w, h1 + h2⟩] := by
  unfold RAreaHorizontalUnion
  simp only [RAreaListNew, RAreaNewStatic, RAreaNew, RAreaX2, RAreaY2, and_self, if_true]
  constructor
  · rw [if_neg (by omega), if_neg (by omega), if_pos (by omega), if_neg (by omega),
      if_pos (by omega)]
  · rw [if_neg (by omega), if_neg (by omega), if_pos (by omega), if_pos (by omega),
      add_comm h2 h1]

/-- C15 at `a = (0,0,5,3)`, `b = (0,3,5,4)`: the result is `(0,0,5,7)`. -/
theorem horizontalUnion_stacked_witness :
    RAreaHorizontalUnion ⟨0, 0, 5, 3⟩ ⟨0, 3, 5, 4⟩ = some [⟨0, 0, 5, 7⟩] ∧
      RAreaHorizontalUnion ⟨0, 3, 5, 4⟩ ⟨0, 0, 5, 3⟩ = some [⟨0, 0, 5, 7⟩] :=
  horizontalUnion_stacked 0 0 5 3 4 (by decide) (by decide) (by decide)

/-- C16: `RAreaVerticalUnion` is the mirror of `RAreaHorizontalUnion` across the
axes. With `T = transpose`, `RAreaVerticalUnion a b` is `none` exactly when
`RAreaHorizontalUnion (T a) (T b)` is, and otherwise it is the list of the
strips of `RAreaHorizontalUnion (T a) (T b)`, each reflected by `T`, in the same
order. -/
theorem verticalUnion_mirror (a b : RArea) :
    RAreaVerticalUnion a b = mirroredHorizontalUnion a b ∧
      (RAreaVerticalUnion a b = none ↔
        RAreaHorizontalUnion (transpose a) (transpose b) = none) ∧
      ∀ l : RAreaList, RAreaHorizontalUnion (transpose a) (transpose b) = some l →
        RAreaVerticalUnion a b = some (l.map transpose) := by
  have h := vu_eq_mirror_aux a b
  refine ⟨h, ?_, ?_⟩
  · rw [h, mirroredHorizontalUnion]
    cases RAreaHorizontalUnion (transpose a) (transpose b) <;> simp
  · intro l hl
    rw [h, mirroredHorizontalUnion, hl]
    rfl

/-- C16 at `a = (0,0,10,5)`, `b = (3,5,4,10)`, whose reflections are `(0,0,5,10)`
and `(5,3,10,4)`. -/
theorem verticalUnion_mirror_witness :
    RAreaVerticalUnion ⟨0, 0, 10, 5⟩ ⟨3, 5, 4, 10⟩
      = some (([⟨0, 0, 5, 3⟩, ⟨0, 3, 15, 4⟩, ⟨0, 7, 5, 3⟩] : List RArea).map transpose) :=
  (verticalUnion_mirror ⟨0, 0, 10, 5⟩ ⟨3, 5, 4, 10⟩).2.2
    [⟨0, 0, 5, 3⟩, ⟨0, 3, 15, 4⟩, ⟨0, 7, 5, 3⟩] (by decide)

/-- C17: the order of the arguments does not matter. For valid rectangles,
`RAreaHorizontalUnion a b` and `RAreaHorizontalUnion b a` are both `none` or the
same list, and likewise for `RAreaVerticalUnion`. -/
theorem union_argument_order (a b : RArea)
    (ha : RAreaIsValid a = true) (hb : RAreaIsValid b = true) :
    RAreaHorizontalUnion a b = RAreaHorizontalUnion b a ∧
      RAreaVerticalUnion a b = RAreaVerticalUnion b a := by
  simp only [RAreaIsValid, Bool.and_eq_true, decide_eq_true_eq] at ha hb
  refine ⟨hu_comm_aux a b ha.1 ha.2 hb.1 hb.2, ?_⟩
  rw [vu_eq_mirror_aux a b, vu_eq_mirror_aux b a, mirroredHorizontalUnion,
    mirroredHorizontalUnion,
    hu_comm_aux (transpose a) (transpose b) ha.2 ha.1 hb.2 hb.1]

/-- C17 at `a = (0,0,5,5)`, `b = (3,0,5,8)`, which have the same `y`. -/
theorem union_argument_order_witness :
    RAreaHorizontalUnion ⟨0, 0, 5, 5⟩ ⟨3, 0, 5, 8⟩
        = RAreaHorizontalUnion ⟨3, 0, 5, 8⟩ ⟨0, 0, 5, 5⟩ ∧
      RAreaVerticalUnion ⟨0, 0, 5, 5⟩ ⟨3, 0, 5, 8⟩
        = RAreaVerticalUnion ⟨3, 0, 5, 8⟩ ⟨0, 0, 5, 5⟩ :=
  union_argument_order ⟨0, 0, 5, 5⟩ ⟨3, 0, 5, 8⟩ (by decide) (by decide)

/-- C18: top-to-bottom order. For two rectangles of positive width and height
for which `RAreaHorizontalUnion` returns a list, the first strip starts at
`min a.y b.y`, every later strip starts one row below the bottom of the strip
before it, and the last strip ends at the lower of the two bottoms. -/
theorem horizontalUnion_top_to_bottom (a b : RArea) (l : RAreaList)
    (haw : 0 < a.width) (hah : 0 < a.height) (hbw : 0 < b.width) (hbh : 0 < b.height)
    (h : RAreaHorizontalUnion a b = some l) :
    l.head?.map (fun r => r.y) = some (min a.y b.y) ∧
      l.Chain' (fun r s => s.y = RAreaY2 r + 1) ∧
      l.getLast?.map RAreaY2 = some (max (RAreaY2 a) (RAreaY2 b)) :=
  hu_order_aux a b l haw hah hbw hbh h

/-- C18 at `a = (0,0,10,5)`, `b = (3,4,4,10)`: the strips start at rows 0, 4
and 5, and the last one ends at row 13. -/
theorem horizontalUnion_top_to_bottom_witness :
    ([⟨0, 0, 10, 4⟩, ⟨0, 4, 10, 1⟩, ⟨3, 5, 4, 9⟩] : List RArea).head?.map (fun r => r.y)
        = some (min (0 : Int) 4) ∧
      ([⟨0, 0, 10, 4⟩, ⟨0, 4, 10, 1⟩, ⟨3, 5, 4, 9⟩] : List RArea).Chain'
        (fun r s => s.y = RAreaY2 r + 1) ∧
      ([⟨0, 0, 10, 4⟩, ⟨0, 4, 10, 1⟩, ⟨3, 5, 4, 9⟩] : List RArea).getLast?.map RAreaY2
        = some (max (RAreaY2 ⟨0, 0, 10, 5⟩) (RAreaY2 ⟨3, 4, 4, 10⟩)) :=
  horizontalUnion_top_to_bottom ⟨0, 0, 10, 5⟩ ⟨3, 4, 4, 10⟩
    [⟨0, 0, 10, 4⟩, ⟨0, 4, 10, 1⟩, ⟨3, 5, 4, 9⟩]
    (by decide) (by decide) (by decide) (by decide) (by decide)

/-- C19: `RAreaIntersect` computes the geometric intersection. A point lies in
`RAreaIntersect a b` exactly when it lies in `a` and in `b`, whatever the fields
of `a` and `b`; and the sentinel contains no point. -/
theorem intersect_contains_iff (a b : RArea) (px py : Int) :
    (RAreaContainsXY (RAreaIntersect a b) px py = true ↔
      (RAreaContainsXY a px py = true ∧ RAreaContainsXY b px py = true)) ∧
      RAreaContainsXY RAreaInvalid px py = false := by
  constructor
  · by_cases hI : RAreaIsIntersect a b = true
    · simp only [RAreaIntersect, hI, if_true, containsXY_iff, RAreaNew, RAreaX2, RAreaY2]
      omega
    · simp only [RAreaIntersect, hI, containsXY_iff, RAreaInvalid]
      rw [isIntersect_iff] at hI
      simp only [Bool.false_eq_true, if_false]
      omega
  · rw [← Bool.not_eq_true, containsXY_iff]
    simp only [RAreaInvalid]
    omega

/-- C20: overlapping rectangles always merge. When `RAreaIsIntersect a b` holds,
neither `RAreaHorizontalUnion a b` nor `RAreaVerticalUnion a b` is `none`. -/
theorem union_present_of_intersect (a b : RArea) (hI : RAreaIsIntersect a b = true) :
    RAreaHorizontalUnion a b ≠ none ∧ RAreaVerticalUnion a b ≠ none := by
  rw [isIntersect_iff] at hI
  constructor
  · unfold RAreaHorizontalUnion
    simp only [RAreaX2, RAreaY2]
    rw [if_neg (by omega), if_neg (by omega), if_neg (by omega)]
    simp
  · unfold RAreaVerticalUnion
    simp only [RAreaX2, RAreaY2]
    rw [if_neg (by omega), if_neg (by omega), if_neg (by omega)]
    simp

/-- C20 at `a = (0,0,5,5)`, `b = (4,0,5,5)`, which share column 4. -/
theorem union_present_of_intersect_witness :
    RAreaHorizontalUnion ⟨0, 0, 5, 5⟩ ⟨4, 0, 5, 5⟩ ≠ none ∧
      RAreaVerticalUnion ⟨0, 0, 5, 5⟩ ⟨4, 0, 5, 5⟩ ≠ none :=
  union_present_of_intersect ⟨0, 0, 5, 5⟩ ⟨4, 0, 5, 5⟩ (by decide)
